import Mathlib

set_option linter.unusedVariables false
set_option maxHeartbeats 800000

/-!
Shallow embedding of the configuration store
(src/packages/core/src/configuration/config.ts) and of the renderer
bootstrap (RendererMain and createRenderer in the core renderer module),
together with theorems checking the specification claims about them.

Callbacks (promise resolvers and onGot subscribers) are modelled by numeric
identities; invoking a callback with a value is recorded as an event
`(id, value)` in the returned event list, so that firing order and firing
counts can be stated precisely.
-/

/-- JavaScript values as the store manipulates them: the undefined marker,
null, booleans, integers, strings, plain objects (ordered field lists), and
tagged references standing for external handles such as service objects or
closures. -/
inductive JSValue where
  | undef
  | jnull
  | boolV (b : Bool)
  | num (n : Int)
  | str (s : String)
  | obj (fields : List (String × JSValue))
  | ext (tag : String)

/-- The test `x === undefined` (and its negation) used throughout config.ts. -/
def JSValue.isUndefined : JSValue → Bool
  | .undef => true
  | _ => false

/-- JavaScript truthiness for the modelled values. -/
def jsTruthy : JSValue → Bool
  | .undef => false
  | .jnull => false
  | .boolV b => b
  | .num n => !(n == 0)
  | .str s => !s.isEmpty
  | .obj _ => true
  | .ext _ => true

/-- Lookup in an ordered association list (first entry with the key wins,
as for a JS object or Map, whose keys are unique). -/
def assocGet {α : Type} (m : List (String × α)) (k : String) : Option α :=
  (m.find? (fun p => p.1 == k)).map (fun p => p.2)

/-- Assignment on a JS object or Map: replace the entry in place when the key
is present, otherwise append a new entry at the end. -/
def assocSet {α : Type} (m : List (String × α)) (k : String) (v : α) :
    List (String × α) :=
  if m.any (fun p => p.1 == k) then
    m.map (fun p => if p.1 == k then (k, v) else p)
  else m ++ [(k, v)]

/-- Deletion on a JS Map. -/
def assocDelete {α : Type} (m : List (String × α)) (k : String) :
    List (String × α) :=
  m.filter (fun p => !(p.1 == k))

/-- JS property read `fields[k]`: undefined when the key is absent. -/
def objGet (fields : List (String × JSValue)) (k : String) : JSValue :=
  (assocGet fields k).getD JSValue.undef

/-- The JS test `k in object` (presence of the key, even with value
undefined). -/
def objHasKey (fields : List (String × JSValue)) (k : String) : Bool :=
  (assocGet fields k).isSome

/-- The isPlainObject test from lodash-es restricted to the modelled values:
only the object constructor qualifies. -/
def isPlainObject : JSValue → Bool
  | .obj _ => true
  | _ => false

/-- A JS object literal evaluated left to right: later entries with an
already-present key overwrite in place, as the spread operator does. -/
def mkObj (entries : List (String × JSValue)) : List (String × JSValue) :=
  entries.foldl (fun acc p => assocSet acc p.1 p.2) []

/-- Whether a key string contains a dot (the deep-path test of lodash-es,
written over the character list so that it evaluates structurally). -/
def strHasDot (s : String) : Bool :=
  s.data.any (fun c => c == '.')

/-- Split a character list at every dot. -/
def splitDotChars : List Char → List (List Char)
  | [] => [[]]
  | c :: rest =>
    if c == '.' then [] :: splitDotChars rest
    else
      match splitDotChars rest with
      | [] => [[c]]
      | g :: gs => (c :: g) :: gs

/-- Split a key string at every dot (the stringToPath of lodash-es restricted
to dotted paths). -/
def splitOnDots (s : String) : List String :=
  (splitDotChars s.data).map (fun g => String.mk g)

/-- Modelled from the spec: lodash-es `get` is an external dependency whose
source is not part of this repository; section 4.2 describes it as a
dotted/nested path lookup.  lodash uses the argument directly as a single key
when it contains no dot (bracket paths are outside this model) or when the
literal key is present on the object; otherwise it splits it on dots and
traverses. -/
def isKeyOf (fields : List (String × JSValue)) (key : String) : Bool :=
  !(strHasDot key) || objHasKey fields key

/-- Modelled from the spec: the path traversal of lodash-es `get`; reading a
property of a non-object (or missing intermediate) yields undefined. -/
def lodashGetPath : JSValue → List String → JSValue
  | v, [] => v
  | .obj fields, p :: ps => lodashGetPath (objGet fields p) ps
  | _, _ :: _ => JSValue.undef

/-- Modelled from the spec: lodash-es `get(object, path, defaultValue)`,
returning the default when the resolved value is undefined. -/
def lodashGet (fields : List (String × JSValue)) (key : String)
    (defaultValue : JSValue) : JSValue :=
  let result :=
    if isKeyOf fields key then objGet fields key
    else lodashGetPath (JSValue.obj fields) (splitOnDots key)
  if result.isUndefined then defaultValue else result

/-- Modelled from the spec: the `invariant` precondition helper of the shared
package (its source is not under src); section 7 says invalid constructor
arguments fail immediately and synchronously via a precondition-check
mechanism.  A falsy condition produces the error; a truthy one lets execution
continue. -/
def invariant (cond : Bool) (message : String) : Except String Unit :=
  if cond then Except.ok () else Except.error message

/-- Result of a setter validator: a boolean or a reason string. -/
inductive ValidRes where
  | b (value : Bool)
  | s (reason : String)

/-- The rejection test in Configuration.set:
`valid === false || typeof valid === 'string'`. -/
def validRejected : ValidRes → Bool
  | .b value => !value
  | .s _ => true

/-- config.ts line 7. -/
def STRICT_PLUGIN_MODE_DEFAULT : Bool := true

/-- A wait entry `{ once?, resolve }` (config.ts lines 20-26): the once flag
(an absent flag is falsy, modelled as false) and the identity of the resolve
callback. -/
structure WaitEntry where
  once : Bool
  id : Nat
deriving DecidableEq, Repr

/-- The setterValidator constructor argument as the untyped runtime sees it:
either a function or some other value (to express the typeof check). -/
inductive SetterArg where
  | fn (f : String → JSValue → ValidRes)
  | other (v : JSValue)

/-- Truthiness of the setterValidator argument (functions are truthy). -/
def SetterArg.truthy : SetterArg → Bool
  | .fn _ => true
  | .other v => jsTruthy v

/-- ConfigurationOptions (config.ts lines 9-12). -/
structure ConfigurationOptions where
  strictMode : Option Bool
  setterValidator : Option SetterArg

/-- The default setter validator `() => true` (config.ts line 16). -/
def defaultSetterValidator : String → JSValue → ValidRes := fun _ _ => ValidRes.b true

/-- The state of a Configuration instance (config.ts lines 14-26). -/
structure Configuration where
  strictMode : Bool
  setterValidator : String → JSValue → ValidRes
  config : List (String × JSValue)
  waits : List (String × List WaitEntry)

/-- `#strictMode = STRICT_PLUGIN_MODE_DEFAULT` overridden to false exactly
when the option is `=== false` (config.ts lines 15 and 35-37). -/
def strictOf : Option Bool → Bool
  | some false => false
  | _ => STRICT_PLUGIN_MODE_DEFAULT

/-- The fields stored as the config snapshot.  The TS signature constrains
config to a plain object; the JSValue parameter of the constructor only
serves the truthiness precondition. -/
def objFields : JSValue → List (String × JSValue)
  | .obj fields => fields
  | _ => []

/-- The Configuration constructor (config.ts lines 28-46): the invariant on
config, the `strictMode === false` handling, and the optional setterValidator
whose typeof-function invariant is guarded by a truthiness test. -/
def Configuration.make (config : JSValue) (options : Option ConfigurationOptions) :
    Except String Configuration :=
  match invariant (jsTruthy config) "config must exist" with
  | .error e => .error e
  | .ok _ =>
    let opts := options.getD { strictMode := none, setterValidator := none }
    match opts.setterValidator with
    | some sv =>
      if sv.truthy then
        match sv with
        | .fn f =>
          .ok { strictMode := strictOf opts.strictMode, setterValidator := f,
                config := objFields config, waits := [] }
        | .other _ => .error "setterValidator must be a function"
      else
        .ok { strictMode := strictOf opts.strictMode,
              setterValidator := defaultSetterValidator,
              config := objFields config, waits := [] }
    | none =>
      .ok { strictMode := strictOf opts.strictMode,
            setterValidator := defaultSetterValidator,
            config := objFields config, waits := [] }

/-- `has` (config.ts lines 52-54): the literal property is not undefined. -/
def Configuration.has (cfg : Configuration) (key : String) : Bool :=
  !(objGet cfg.config key).isUndefined

/-- `get` (config.ts lines 61-63): deep lookup via lodash get. -/
def Configuration.get (cfg : Configuration) (key : String)
    (defaultValue : JSValue) : JSValue :=
  lodashGet cfg.config key defaultValue

/-- The while loop of notifyGot (config.ts lines 136-142) on the reversed
copy: descending index, invoke the entry at the index, then splice it out
when it is a once entry.  The index argument is the value of `i` before the
`i--` test.  The modelled callbacks are pure observers, so the value passed
to them (`this.get(key)`) is the same at every iteration and is taken as a
parameter. -/
def notifyIter (val : JSValue) : List WaitEntry → Nat →
    List (Nat × JSValue) × List WaitEntry
  | ws, 0 => ([], ws)
  | ws, i + 1 =>
    match ws[i]? with
    | none => ([], ws)
    | some w =>
      let ws1 := if w.once then ws.eraseIdx i else ws
      let r := notifyIter val ws1 i
      ((w.id, val) :: r.1, r.2)

/-- `notifyGot` (config.ts lines 130-148): take the waiter list for the key
(returning when the Map has none), iterate the loop over its reversed copy,
then store the surviving list back, or delete the key when it is empty. -/
def Configuration.notifyGot (cfg : Configuration) (key : String) :
    List (Nat × JSValue) × Configuration :=
  match assocGet cfg.waits key with
  | none => ([], cfg)
  | some ws =>
    let rws := ws.reverse
    let r := notifyIter (cfg.get key JSValue.undef) rws rws.length
    if r.2.length > 0 then
      (r.1, { cfg with waits := assocSet cfg.waits key r.2 })
    else
      (r.1, { cfg with waits := assocDelete cfg.waits key })

/-- `setWait` (config.ts lines 150-157): push onto the existing list for the
key, or create a fresh singleton list. -/
def Configuration.setWait (cfg : Configuration) (key : String) (id : Nat)
    (once : Bool) : Configuration :=
  match assocGet cfg.waits key with
  | some ws =>
    { cfg with waits := assocSet cfg.waits key (ws ++ [{ once := once, id := id }]) }
  | none =>
    { cfg with waits := assocSet cfg.waits key [{ once := once, id := id }] }

/-- `set` (config.ts lines 70-83): under strict mode a validator result of
false or a string aborts (the warning log is not observable state); otherwise
store the value and fire notifyGot. -/
def Configuration.set (cfg : Configuration) (key : String) (value : JSValue) :
    List (Nat × JSValue) × Configuration :=
  if cfg.strictMode && validRejected (cfg.setterValidator key value) then
    ([], cfg)
  else
    Configuration.notifyGot { cfg with config := assocSet cfg.config key value } key

/-- `setConfig` (config.ts lines 89-95): when the argument is a plain object,
iterate its own keys and call set with the looked-up value for each. -/
def Configuration.setConfig (cfg : Configuration) (config : JSValue) :
    List (Nat × JSValue) × Configuration :=
  match config with
  | .obj fields =>
    (fields.map Prod.fst).foldl
      (fun acc key =>
        let r := Configuration.set acc.2 key (objGet fields key)
        (acc.1 ++ r.1, r.2))
      ([], cfg)
  | _ => ([], cfg)

/-- The promise returned by onceGot: already resolved with a value, or
pending with the identity of its resolve callback. -/
inductive OncePromise where
  | resolved (value : JSValue)
  | pending (id : Nat)

/-- `onceGot` (config.ts lines 103-111): an immediately resolved promise when
the literal property is defined, otherwise a pending promise whose resolve
callback is registered as a once waiter.  The id of the fresh resolve
callback is supplied by the caller. -/
def Configuration.onceGot (cfg : Configuration) (key : String) (id : Nat) :
    OncePromise × Configuration :=
  let val := objGet cfg.config key
  if !val.isUndefined then (OncePromise.resolved val, cfg)
  else (OncePromise.pending id, cfg.setWait key id true)

/-- `onGot` (config.ts lines 119-128): call the callback synchronously when a
defined value exists, then register it as a persistent waiter.  The returned
unsubscribe closure is `delWait key id`. -/
def Configuration.onGot (cfg : Configuration) (key : String) (id : Nat) :
    List (Nat × JSValue) × Configuration :=
  let val := objGet cfg.config key
  let events := if !val.isUndefined then [(id, val)] else []
  (events, cfg.setWait key id false)

/-- The while loop of delWait (config.ts lines 164-169): descending index,
splice out every entry whose resolve callback is the given one. -/
def delWaitIter (fnId : Nat) : List WaitEntry → Nat → List WaitEntry
  | ws, 0 => ws
  | ws, i + 1 =>
    match ws[i]? with
    | none => ws
    | some w => delWaitIter fnId (if w.id == fnId then ws.eraseIdx i else ws) i

/-- `delWait` (config.ts lines 159-173): remove every matching entry in
place, then drop the key from the Map when its list became empty. -/
def Configuration.delWait (cfg : Configuration) (key : String) (fnId : Nat) :
    Configuration :=
  match assocGet cfg.waits key with
  | none => cfg
  | some ws =>
    let remaining := delWaitIter fnId ws ws.length
    if remaining.length < 1 then { cfg with waits := assocDelete cfg.waits key }
    else { cfg with waits := assocSet cfg.waits key remaining }

/-! ## Renderer bootstrap (RendererMain, createRenderer)

The RendererMain class and createRenderer factory are translated from the
core renderer module.  The lifecycle service it injects is not under src, so
its phase setter and `when` rendezvous are modelled from the spec (section
4.1), and the cooperative promise/microtask scheduling of section 5 is made
explicit as a deterministic small-step scheduler over suspended task
continuations.  The external collaborators (schema service, code runtime,
package manager, extension host, and the adapter) only contribute observable
trace events; the adapter is modelled by the render object it eventually
produces. -/

/-- Modelled from the spec: the ordered lifecycle phases (section 3). -/
inductive LifecyclePhase where
  | Uninitialized
  | OptionsResolved
  | Ready
  | AfterInitPackageLoad
deriving DecidableEq, Repr

/-- Position of a phase in the lifecycle order. -/
def LifecyclePhase.idx : LifecyclePhase → Nat
  | .Uninitialized => 0
  | .OptionsResolved => 1
  | .Ready => 2
  | .AfterInitPackageLoad => 3

/-- Observable events of a bootstrap run, in occurrence order. -/
inductive BootEvent where
  | schemaInitialized
  | codeRuntimeInitialized
  | phaseSet (p : LifecyclePhase)
  | adapterInvoked
  | adapterResolved
  | renderObjectStored
  | registerPluginCalled
  | registerPluginResolved
  | loadPackagesCalled
  | loadPackagesResolved
  | appBuilt
deriving DecidableEq, Repr

/-- Suspended continuations of the two async bodies (the constructor
continuation and main) plus the factory continuation that awaits main and
then runs getApp. -/
inductive TaskPoint where
  | contStart
  | contAfterAdapter
  | mainAfterReady
  | mainAfterRegister
  | mainAfterLoad
  | factoryAfterMain
  | getAppBuild
deriving DecidableEq, Repr

/-- The externally completing async calls awaited by the two bodies. -/
inductive ExtKind where
  | adapterExt
  | registerExt
  | loadExt
deriving DecidableEq, Repr

/-- AppOptions: `{ schema, mode?, plugins?, codeRuntime?, packages? }`. -/
structure AppOptions where
  schema : JSValue
  mode : Option String
  plugins : Option (List JSValue)
  codeRuntime : Option JSValue
  packages : Option (List JSValue)

/-- The whole cooperative state of one bootstrap: the lifecycle phase and its
registered waiters, the microtask queue, the at-most-one in-flight external
call, the private RendererMain fields that the claims observe, the built
application object, and the event trace. -/
structure RenderState where
  phase : LifecyclePhase
  phaseWaiters : List (LifecyclePhase × TaskPoint)
  queue : List TaskPoint
  pendingExt : Option (ExtKind × TaskPoint)
  mode : String
  renderObject : Option (List (String × JSValue))
  app : Option (List (String × JSValue))
  trace : List BootEvent

/-- Modelled from the spec: the lifecycle phase setter (section 4.1): record
the new phase and resolve every waiter whose target phase is reached or
passed, in registration order, by moving it onto the microtask queue. -/
def lifecycleSetPhase (st : RenderState) (p : LifecyclePhase) : RenderState :=
  let fired := st.phaseWaiters.filter (fun w => w.1.idx ≤ p.idx)
  let rest := st.phaseWaiters.filter (fun w => !(w.1.idx ≤ p.idx : Bool))
  { st with
    phase := p
    phaseWaiters := rest
    queue := st.queue ++ fired.map (fun w => w.2)
    trace := st.trace ++ [BootEvent.phaseSet p] }

/-- Modelled from the spec: `when(targetPhase).then(k)` (section 4.1):
resolve at once (queueing the continuation as a microtask) when the current
phase already reached the target, otherwise register a waiter. -/
def lifecycleWhen (st : RenderState) (target : LifecyclePhase) (k : TaskPoint) :
    RenderState :=
  if target.idx ≤ st.phase.idx then { st with queue := st.queue ++ [k] }
  else { st with phaseWaiters := st.phaseWaiters ++ [(target, k)] }

/-- `if (mode) this.mode = mode`: an absent or empty (falsy) mode keeps the
current field value. -/
def resolveModeField (mode : Option String) (current : String) : String :=
  match mode with
  | some s => if s.isEmpty then current else s
  | none => current

/-- The application object built by getApp: the object literal with
`__options`, mode, the schema and packageManager service handles, the spread
render object, and the `use` closure, evaluated left to right. -/
def buildApp (mode : String) (renderObject : Option (List (String × JSValue))) :
    List (String × JSValue) :=
  mkObj
    ([("__options", JSValue.ext "initOptions"),
      ("mode", JSValue.str mode),
      ("schema", JSValue.ext "schemaService"),
      ("packageManager", JSValue.ext "packageManagementService")]
     ++ renderObject.getD []
     ++ [("use", JSValue.ext "useClosure")])

/-- Modelled from the JS semantics of Object.freeze: assignment to a property
of the frozen application object has no effect. -/
def frozenAssign (o : List (String × JSValue)) (k : String) (v : JSValue) :
    List (String × JSValue) := o

/-- One synchronous segment of a suspended body, translated from the renderer
source.  `contStart` and `contAfterAdapter` are the constructor continuation
around its `await this.adapter(renderContext)`; the `mainAfter...` points are
main after its three awaits; `factoryAfterMain` is the factory closure after
`await rendererMain.main(...)`, which calls getApp; `getAppBuild` is getApp
after its `when(AfterInitPackageLoad)` resolves. -/
def runTask (adapterResult : List (String × JSValue)) (st : RenderState) :
    TaskPoint → RenderState
  | .contStart =>
    { st with
      trace := st.trace ++ [BootEvent.adapterInvoked]
      pendingExt := some (ExtKind.adapterExt, TaskPoint.contAfterAdapter) }
  | .contAfterAdapter =>
    lifecycleSetPhase
      { st with
        renderObject := some adapterResult
        trace := st.trace ++ [BootEvent.renderObjectStored] }
      LifecyclePhase.Ready
  | .mainAfterReady =>
    { st with
      trace := st.trace ++ [BootEvent.registerPluginCalled]
      pendingExt := some (ExtKind.registerExt, TaskPoint.mainAfterRegister) }
  | .mainAfterRegister =>
    { st with
      trace := st.trace ++ [BootEvent.loadPackagesCalled]
      pendingExt := some (ExtKind.loadExt, TaskPoint.mainAfterLoad) }
  | .mainAfterLoad =>
    let st1 := lifecycleSetPhase st LifecyclePhase.AfterInitPackageLoad
    { st1 with queue := st1.queue ++ [TaskPoint.factoryAfterMain] }
  | .factoryAfterMain =>
    lifecycleWhen st LifecyclePhase.AfterInitPackageLoad TaskPoint.getAppBuild
  | .getAppBuild =>
    { st with
      app := some (buildApp st.mode st.renderObject)
      trace := st.trace ++ [BootEvent.appBuilt] }

/-- One scheduler step: run the next microtask; with an empty queue, complete
the in-flight external call (queueing its awaiting continuation); otherwise
the run is finished and the state is left unchanged. -/
def schedStep (adapterResult : List (String × JSValue)) (st : RenderState) :
    RenderState :=
  match st.queue with
  | k :: rest => runTask adapterResult { st with queue := rest } k
  | [] =>
    match st.pendingExt with
    | some (ext, k) =>
      let ev := match ext with
        | .adapterExt => BootEvent.adapterResolved
        | .registerExt => BootEvent.registerPluginResolved
        | .loadExt => BootEvent.loadPackagesResolved
      { st with pendingExt := none, queue := [k], trace := st.trace ++ [ev] }
    | none => st

/-- Iterate the scheduler. -/
def schedRun (adapterResult : List (String × JSValue)) :
    Nat → RenderState → RenderState
  | 0, st => st
  | n + 1, st => schedRun adapterResult n (schedStep adapterResult st)

/-- The initial state: phase Uninitialized, nothing queued, the mode field
default of the RendererMain class. -/
def initState : RenderState :=
  { phase := LifecyclePhase.Uninitialized
    phaseWaiters := []
    queue := []
    pendingExt := none
    mode := "production"
    renderObject := none
    app := none
    trace := [] }

/-- The synchronous prefix of `main(options, adapter)` up to its first await:
the mode override, the synchronous schema and code-runtime initialisation,
the advance to OptionsResolved (which resolves the constructor continuation),
and the registration on `when(Ready)`. -/
def mainStart (opts : AppOptions) (st : RenderState) : RenderState :=
  let st1 := { st with mode := resolveModeField opts.mode st.mode }
  let st2 := { st1 with trace := st1.trace ++ [BootEvent.schemaInitialized] }
  let st3 := { st2 with trace := st2.trace ++ [BootEvent.codeRuntimeInitialized] }
  let st4 := lifecycleSetPhase st3 LifecyclePhase.OptionsResolved
  lifecycleWhen st4 LifecyclePhase.Ready TaskPoint.mainAfterReady

/-- A whole bootstrap: the constructor registers its continuation on
`when(OptionsResolved)`, the factory closure runs main synchronously to its
first await, and the cooperative scheduler then runs the rest to quiescence
(14 steps suffice; further steps are identities). -/
def bootstrapRun (opts : AppOptions) (adapterResult : List (String × JSValue)) :
    RenderState :=
  let st0 := lifecycleWhen initState LifecyclePhase.OptionsResolved TaskPoint.contStart
  schedRun adapterResult 14 (mainStart opts st0)

/-- The application object of a finished run. -/
def appOf (st : RenderState) : List (String × JSValue) :=
  st.app.getD []

/-- The adapter argument of createRenderer as the untyped runtime sees it:
a function (modelled by the render object it will produce) or another
value. -/
inductive AdapterArg where
  | fn (renderResult : List (String × JSValue))
  | other (v : JSValue)

/-- `typeof renderAdapter === 'function'`. -/
def AdapterArg.isFn : AdapterArg → Bool
  | .fn _ => true
  | .other _ => false

/-- The render object an adapter function will produce. -/
def AdapterArg.renderResult : AdapterArg → List (String × JSValue)
  | .fn r => r
  | .other _ => []

/-- `createRenderer` (renderer module lines 98-114): the invariant on the
adapter fires before anything else; on success the returned factory runs the
bootstrap for the supplied options. -/
def createRenderer (renderAdapter : AdapterArg) :
    Except String (AppOptions → RenderState) :=
  match invariant renderAdapter.isFn "The first parameter must be a function." with
  | .error e => .error e
  | .ok _ => .ok (fun options => bootstrapRun options renderAdapter.renderResult)

/-- Whether a constructor run succeeded (did not throw). -/
def exceptOk {ε α : Type} : Except ε α → Bool
  | .ok _ => true
  | .error _ => false

/-- The expected full event trace of one bootstrap run. -/
def bootExpectedTrace : List BootEvent :=
  [BootEvent.schemaInitialized,
   BootEvent.codeRuntimeInitialized,
   BootEvent.phaseSet LifecyclePhase.OptionsResolved,
   BootEvent.adapterInvoked,
   BootEvent.adapterResolved,
   BootEvent.renderObjectStored,
   BootEvent.phaseSet LifecyclePhase.Ready,
   BootEvent.registerPluginCalled,
   BootEvent.registerPluginResolved,
   BootEvent.loadPackagesCalled,
   BootEvent.loadPackagesResolved,
   BootEvent.phaseSet LifecyclePhase.AfterInitPackageLoad,
   BootEvent.appBuilt]

/-- Event a occurs in the trace strictly before event b. -/
def beforeIn (tr : List BootEvent) (a b : BootEvent) : Prop :=
  a ∈ tr ∧ b ∈ tr ∧ tr.findIdx (fun e => e == a) < tr.findIdx (fun e => e == b)

/-! The cooperative run of a bootstrap visits the following explicit states;
each is one scheduler step from the previous one (proved below by rfl), which
keeps every definitional-reduction obligation shallow. -/

/-- State after the synchronous prefix of main: the constructor continuation
resolved onto the queue by the OptionsResolved transition, main suspended on
`when(Ready)`. -/
def bootSt1 (opts : AppOptions) : RenderState :=
  { phase := LifecyclePhase.OptionsResolved
    phaseWaiters := [(LifecyclePhase.Ready, TaskPoint.mainAfterReady)]
    queue := [TaskPoint.contStart]
    pendingExt := none
    mode := resolveModeField opts.mode "production"
    renderObject := none
    app := none
    trace := [BootEvent.schemaInitialized, BootEvent.codeRuntimeInitialized,
              BootEvent.phaseSet LifecyclePhase.OptionsResolved] }

/-- The constructor continuation ran: adapter invoked and awaited. -/
def bootSt2 (opts : AppOptions) : RenderState :=
  { bootSt1 opts with
    queue := []
    pendingExt := some (ExtKind.adapterExt, TaskPoint.contAfterAdapter)
    trace := (bootSt1 opts).trace ++ [BootEvent.adapterInvoked] }

/-- The adapter promise resolved; the continuation is queued. -/
def bootSt3 (opts : AppOptions) : RenderState :=
  { bootSt2 opts with
    queue := [TaskPoint.contAfterAdapter]
    pendingExt := none
    trace := (bootSt2 opts).trace ++ [BootEvent.adapterResolved] }

/-- The render object stored and phase advanced to Ready, resuming main. -/
def bootSt4 (opts : AppOptions) (adapterResult : List (String × JSValue)) :
    RenderState :=
  { bootSt3 opts with
    phase := LifecyclePhase.Ready
    phaseWaiters := []
    queue := [TaskPoint.mainAfterReady]
    renderObject := some adapterResult
    trace := (bootSt3 opts).trace ++
      [BootEvent.renderObjectStored, BootEvent.phaseSet LifecyclePhase.Ready] }

/-- Main resumed: registerPlugin called and awaited. -/
def bootSt5 (opts : AppOptions) (adapterResult : List (String × JSValue)) :
    RenderState :=
  { bootSt4 opts adapterResult with
    queue := []
    pendingExt := some (ExtKind.registerExt, TaskPoint.mainAfterRegister)
    trace := (bootSt4 opts adapterResult).trace ++ [BootEvent.registerPluginCalled] }

/-- registerPlugin resolved. -/
def bootSt6 (opts : AppOptions) (adapterResult : List (String × JSValue)) :
    RenderState :=
  { bootSt5 opts adapterResult with
    queue := [TaskPoint.mainAfterRegister]
    pendingExt := none
    trace := (bootSt5 opts adapterResult).trace ++ [BootEvent.registerPluginResolved] }

/-- loadPackages called and awaited. -/
def bootSt7 (opts : AppOptions) (adapterResult : List (String × JSValue)) :
    RenderState :=
  { bootSt6 opts adapterResult with
    queue := []
    pendingExt := some (ExtKind.loadExt, TaskPoint.mainAfterLoad)
    trace := (bootSt6 opts adapterResult).trace ++ [BootEvent.loadPackagesCalled] }

/-- loadPackages resolved. -/
def bootSt8 (opts : AppOptions) (adapterResult : List (String × JSValue)) :
    RenderState :=
  { bootSt7 opts adapterResult with
    queue := [TaskPoint.mainAfterLoad]
    pendingExt := none
    trace := (bootSt7 opts adapterResult).trace ++ [BootEvent.loadPackagesResolved] }

/-- Main finished: phase AfterInitPackageLoad set, the factory continuation
(awaiting main) queued. -/
def bootSt9 (opts : AppOptions) (adapterResult : List (String × JSValue)) :
    RenderState :=
  { bootSt8 opts adapterResult with
    phase := LifecyclePhase.AfterInitPackageLoad
    queue := [TaskPoint.factoryAfterMain]
    trace := (bootSt8 opts adapterResult).trace ++
      [BootEvent.phaseSet LifecyclePhase.AfterInitPackageLoad] }

/-- getApp started; its when(AfterInitPackageLoad) resolved immediately. -/
def bootSt10 (opts : AppOptions) (adapterResult : List (String × JSValue)) :
    RenderState :=
  { bootSt9 opts adapterResult with queue := [TaskPoint.getAppBuild] }

/-- The application object is built; the run is quiescent. -/
def bootSt11 (opts : AppOptions) (adapterResult : List (String × JSValue)) :
    RenderState :=
  { bootSt10 opts adapterResult with
    queue := []
    app := some (buildApp (resolveModeField opts.mode "production") (some adapterResult))
    trace := (bootSt10 opts adapterResult).trace ++ [BootEvent.appBuilt] }

/-- A set for this key/value would pass validation (trivially so outside
strict mode): the hypothesis of a claim about a successful set. -/
def SetOk (cfg : Configuration) (k : String) (v : JSValue) : Prop :=
  cfg.strictMode = true → validRejected (cfg.setterValidator k v) = false

/-- The callback identity is fresh: no wait entry of any key mentions it. -/
def idFresh (cfg : Configuration) (id : Nat) : Prop :=
  ∀ p ∈ cfg.waits, ∀ w ∈ p.2, w.id ≠ id

/-! ### Concrete instances used by witnesses and counterexamples -/

/-- A strict configuration whose validator rejects the key x and approves
every other key. -/
def vcfgC1 : Configuration :=
  { strictMode := true
    setterValidator := fun k _ => if k == "x" then ValidRes.b false else ValidRes.b true
    config := []
    waits := [] }

/-- A configuration with two persistent waiters for key k, registered in the
order id 1 then id 2. -/
def cfgC4 : Configuration :=
  { strictMode := true
    setterValidator := defaultSetterValidator
    config := [("k", JSValue.num 7)]
    waits := [("k", [{ once := false, id := 1 }, { once := false, id := 2 }])] }

/-- A configuration whose literal key a.b is absent but whose key a holds an
object with field b. -/
def cfgC10 (v : JSValue) : Configuration :=
  { strictMode := true
    setterValidator := defaultSetterValidator
    config := [("a", JSValue.obj [("b", v)])]
    waits := [] }

/-- An empty strict configuration with the default validator. -/
def cfgEmpty : Configuration :=
  { strictMode := true
    setterValidator := defaultSetterValidator
    config := []
    waits := [] }

/-- A configuration with key k already set. -/
def cfgDefined : Configuration :=
  { strictMode := true
    setterValidator := defaultSetterValidator
    config := [("k", JSValue.num 5)]
    waits := [] }

/-- A truthy (plain object) constructor argument. -/
def cfgObjC8 : JSValue := JSValue.obj [("a", JSValue.num 1)]

/-- Constructor options supplying a falsy non-function setterValidator. -/
def optsC8 : ConfigurationOptions :=
  { strictMode := none, setterValidator := some (SetterArg.other (JSValue.num 0)) }

/-- Bootstrap options without a mode override. -/
def optsNoMode : AppOptions :=
  { schema := JSValue.obj [], mode := none, plugins := none,
    codeRuntime := none, packages := none }

/-! ## Theorems and lemmas -/

/-- Unfolding one scheduler step under a step equality. -/
theorem schedRun_succ_congr (adapterResult : List (String × JSValue)) (n : Nat)
    (a b : RenderState) (h : schedStep adapterResult a = b) :
    schedRun adapterResult (n + 1) a = schedRun adapterResult n b := by
  rw [← h]; rfl

/-- The bootstrap run reaches the quiescent state bootSt11. -/
theorem bootstrapRun_eq (opts : AppOptions) (ar : List (String × JSValue)) :
    bootstrapRun opts ar = bootSt11 opts ar := by
  calc bootstrapRun opts ar
      = schedRun ar 14 (bootSt1 opts) := rfl
    _ = schedRun ar 13 (bootSt2 opts) := schedRun_succ_congr ar 13 _ _ rfl
    _ = schedRun ar 12 (bootSt3 opts) := schedRun_succ_congr ar 12 _ _ rfl
    _ = schedRun ar 11 (bootSt4 opts ar) := schedRun_succ_congr ar 11 _ _ rfl
    _ = schedRun ar 10 (bootSt5 opts ar) := schedRun_succ_congr ar 10 _ _ rfl
    _ = schedRun ar 9 (bootSt6 opts ar) := schedRun_succ_congr ar 9 _ _ rfl
    _ = schedRun ar 8 (bootSt7 opts ar) := schedRun_succ_congr ar 8 _ _ rfl
    _ = schedRun ar 7 (bootSt8 opts ar) := schedRun_succ_congr ar 7 _ _ rfl
    _ = schedRun ar 6 (bootSt9 opts ar) := schedRun_succ_congr ar 6 _ _ rfl
    _ = schedRun ar 5 (bootSt10 opts ar) := schedRun_succ_congr ar 5 _ _ rfl
    _ = schedRun ar 4 (bootSt11 opts ar) := schedRun_succ_congr ar 4 _ _ rfl
    _ = schedRun ar 3 (bootSt11 opts ar) := schedRun_succ_congr ar 3 _ _ rfl
    _ = schedRun ar 2 (bootSt11 opts ar) := schedRun_succ_congr ar 2 _ _ rfl
    _ = schedRun ar 1 (bootSt11 opts ar) := schedRun_succ_congr ar 1 _ _ rfl
    _ = schedRun ar 0 (bootSt11 opts ar) := schedRun_succ_congr ar 0 _ _ rfl
    _ = bootSt11 opts ar := rfl

/-- The trace of every bootstrap run is the expected event sequence. -/
theorem bootstrapRun_trace (opts : AppOptions) (ar : List (String × JSValue)) :
    (bootstrapRun opts ar).trace = bootExpectedTrace := by
  rw [bootstrapRun_eq]; rfl

/-- The application object of every bootstrap run. -/
theorem bootstrapRun_app (opts : AppOptions) (ar : List (String × JSValue)) :
    (bootstrapRun opts ar).app =
      some (buildApp (resolveModeField opts.mode "production") (some ar)) := by
  rw [bootstrapRun_eq]; rfl

/-! ### List helpers -/

theorem getElem?_append_cons {α : Type} (xs : List α) (y : α) (zs : List α) :
    (xs ++ y :: zs)[xs.length]? = some y := by
  induction xs with
  | nil => simp
  | cons a t ih => simpa using ih

theorem eraseIdx_append_cons {α : Type} (xs : List α) (y : α) (zs : List α) :
    (xs ++ y :: zs).eraseIdx xs.length = xs ++ zs := by
  induction xs with
  | nil => rfl
  | cons a t ih => simp [List.eraseIdx, ih]

theorem getElem_append_cons {α : Type} (xs : List α) (y : α) (zs : List α)
    (h : xs.length < (xs ++ y :: zs).length) : (xs ++ y :: zs)[xs.length] = y := by
  induction xs with
  | nil => simp
  | cons a t ih => simpa using ih (by simpa using h)

theorem find?_append {α : Type} (p : α → Bool) (l1 l2 : List α) :
    (l1 ++ l2).find? p = (l1.find? p).orElse (fun _ => l2.find? p) := by
  induction l1 with
  | nil => simp
  | cons a t ih => by_cases ha : p a <;> simp [List.find?_cons, ha, ih]

theorem find?_none_of_any_false {α : Type} (m : List (String × α)) (k : String)
    (h : m.any (fun p => p.1 == k) = false) :
    m.find? (fun p => p.1 == k) = none := by
  induction m with
  | nil => rfl
  | cons q rest ih =>
    simp only [List.any_cons, Bool.or_eq_false_iff] at h
    simp [List.find?_cons, h.1, ih h.2]

/-! ### The notifyGot splice loop -/

theorem notifyIter_step (val : JSValue) (ts : List WaitEntry) (w : WaitEntry)
    (zs : List WaitEntry) :
    notifyIter val (ts ++ w :: zs) (ts.length + 1) =
      ((w.id, val) ::
         (notifyIter val (if w.once then ts ++ zs else ts ++ w :: zs) ts.length).1,
       (notifyIter val (if w.once then ts ++ zs else ts ++ w :: zs) ts.length).2) := by
  by_cases hw : w.once <;>
    simp [notifyIter, getElem?_append_cons, getElem_append_cons,
      eraseIdx_append_cons, hw]

theorem notifyIter_append (val : JSValue) (ys : List WaitEntry) :
    ∀ zs : List WaitEntry,
      notifyIter val (ys ++ zs) ys.length =
        ((notifyIter val ys ys.length).1, (notifyIter val ys ys.length).2 ++ zs) := by
  induction ys using List.reverseRecOn with
  | nil => intro zs; simp [notifyIter]
  | append_singleton ts w ih =>
    intro zs
    have hlen : (ts ++ [w]).length = ts.length + 1 := by simp
    have hassoc : (ts ++ [w]) ++ zs = ts ++ w :: zs := by simp
    rw [hassoc, hlen, notifyIter_step]
    by_cases hw : w.once
    · rw [if_pos hw, ih zs]
      have h2 : notifyIter val (ts ++ [w]) (ts.length + 1) =
          ((w.id, val) :: (notifyIter val ts ts.length).1,
           (notifyIter val ts ts.length).2) := by
        have := notifyIter_step val ts w []
        simpa [hw] using this
      rw [h2]
    · rw [if_neg hw, ih (w :: zs)]
      have h2 : notifyIter val (ts ++ [w]) (ts.length + 1) =
          ((w.id, val) :: (notifyIter val ts ts.length).1,
           (notifyIter val ts ts.length).2 ++ [w]) := by
        have h3 := notifyIter_step val ts w []
        rw [if_neg hw] at h3
        rw [h3, ih [w]]
      rw [h2]
      simp

theorem notifyIter_spec (val : JSValue) (ws : List WaitEntry) :
    notifyIter val ws ws.length =
      (ws.reverse.map (fun w => (w.id, val)), ws.filter (fun w => !w.once)) := by
  induction ws using List.reverseRecOn with
  | nil => rfl
  | append_singleton ts w ih =>
    have hlen : (ts ++ [w]).length = ts.length + 1 := by simp
    have hcons : ts ++ [w] = ts ++ w :: ([] : List WaitEntry) := by simp
    rw [hlen, hcons, notifyIter_step]
    by_cases hw : w.once
    · rw [if_pos hw]
      simp only [List.append_nil]
      rw [ih]
      simp [hw]
    · rw [if_neg hw]
      have h2 : ts ++ w :: ([] : List WaitEntry) = ts ++ [w] := by simp
      rw [h2, notifyIter_append val ts [w], ih]
      simp [hw]

/-! ### The delWait splice loop -/

theorem delWaitIter_step (fnId : Nat) (ts : List WaitEntry) (w : WaitEntry)
    (zs : List WaitEntry) :
    delWaitIter fnId (ts ++ w :: zs) (ts.length + 1) =
      delWaitIter fnId (if w.id == fnId then ts ++ zs else ts ++ w :: zs)
        ts.length := by
  by_cases hw : w.id == fnId <;>
    simp [delWaitIter, getElem?_append_cons, getElem_append_cons,
      eraseIdx_append_cons, hw]

theorem delWaitIter_append (fnId : Nat) (ys : List WaitEntry) :
    ∀ zs : List WaitEntry,
      delWaitIter fnId (ys ++ zs) ys.length =
        delWaitIter fnId ys ys.length ++ zs := by
  induction ys using List.reverseRecOn with
  | nil => intro zs; simp [delWaitIter]
  | append_singleton ts w ih =>
    intro zs
    have hlen : (ts ++ [w]).length = ts.length + 1 := by simp
    have hassoc : (ts ++ [w]) ++ zs = ts ++ w :: zs := by simp
    rw [hassoc, hlen, delWaitIter_step]
    by_cases hw : w.id == fnId
    · rw [if_pos hw, ih zs]
      have h2 : delWaitIter fnId (ts ++ [w]) (ts.length + 1) =
          delWaitIter fnId ts ts.length := by
        have h3 := delWaitIter_step fnId ts w []
        rw [if_pos hw] at h3
        simpa using h3
      rw [h2]
    · rw [if_neg hw, ih (w :: zs)]
      have h2 : delWaitIter fnId (ts ++ [w]) (ts.length + 1) =
          delWaitIter fnId ts ts.length ++ [w] := by
        have h3 := delWaitIter_step fnId ts w []
        rw [if_neg hw] at h3
        rw [h3, ih [w]]
      rw [h2]
      simp

theorem delWaitIter_spec (fnId : Nat) (ws : List WaitEntry) :
    delWaitIter fnId ws ws.length = ws.filter (fun w => !(w.id == fnId)) := by
  induction ws using List.reverseRecOn with
  | nil => rfl
  | append_singleton ts w ih =>
    have hlen : (ts ++ [w]).length = ts.length + 1 := by simp
    have hcons : ts ++ [w] = ts ++ w :: ([] : List WaitEntry) := by simp
    rw [hlen, hcons, delWaitIter_step]
    by_cases hw : w.id == fnId
    · rw [if_pos hw]
      simp only [List.append_nil]
      rw [ih]
      simp [hw]
    · rw [if_neg hw]
      have h2 : ts ++ w :: ([] : List WaitEntry) = ts ++ [w] := by simp
      rw [h2, delWaitIter_append fnId ts [w], ih]
      simp [hw]

/-! ### Association list operations -/

theorem bool_eq_false {b : Bool} (h : ¬(b = true)) : b = false := by
  cases b
  · rfl
  · exact absurd rfl h

theorem find?_cons_true {α : Type} (p : α → Bool) (a : α) (l : List α)
    (h : p a = true) : (a :: l).find? p = some a := by
  rw [List.find?_cons, h]

theorem find?_cons_false {α : Type} (p : α → Bool) (a : α) (l : List α)
    (h : p a = false) : (a :: l).find? p = l.find? p := by
  rw [List.find?_cons, h]

theorem find?_map_key_any {α : Type} (m : List (String × α)) (k : String) (v : α)
    (h : m.any (fun p => p.1 == k) = true) :
    (m.map (fun p => if p.1 == k then (k, v) else p)).find? (fun p => p.1 == k) =
      some (k, v) := by
  induction m with
  | nil => simp at h
  | cons q rest ih =>
    rw [List.map_cons]
    by_cases hq : q.1 = k
    · rw [if_pos (by simpa using hq)]
      exact find?_cons_true _ _ _ (by simp)
    · rw [if_neg (by simpa using hq)]
      rw [find?_cons_false _ _ _ (by simpa using hq)]
      exact ih (by simpa [List.any_cons, hq] using h)

theorem find?_key2_map {α : Type} (m : List (String × α)) (k1 k2 : String) (v : α)
    (h : ¬(k1 = k2)) :
    (m.map (fun p => if p.1 == k1 then (k1, v) else p)).find? (fun p => p.1 == k2) =
      m.find? (fun p => p.1 == k2) := by
  induction m with
  | nil => rfl
  | cons q rest ih =>
    rw [List.map_cons]
    by_cases hq : q.1 = k1
    · rw [if_pos (by simpa using hq)]
      rw [find?_cons_false _ _ _ (by simp [h]), find?_cons_false _ _ _ (by simp [hq, h]), ih]
    · rw [if_neg (by simpa using hq)]
      by_cases hq2 : q.1 = k2
      · rw [find?_cons_true _ _ _ (by simpa using hq2),
          find?_cons_true _ _ _ (by simpa using hq2)]
      · rw [find?_cons_false _ _ _ (by simpa using hq2),
          find?_cons_false _ _ _ (by simpa using hq2), ih]

theorem map_key_id_of_any_false {α : Type} (m : List (String × α)) (k : String)
    (v : α) (h : m.any (fun p => p.1 == k) = false) :
    m.map (fun p => if p.1 == k then (k, v) else p) = m := by
  induction m with
  | nil => rfl
  | cons q rest ih =>
    simp only [List.any_cons, Bool.or_eq_false_iff] at h
    rw [List.map_cons, if_neg (by simp [h.1]), ih h.2]

theorem assocGet_set_self {α : Type} (m : List (String × α)) (k : String) (v : α) :
    assocGet (assocSet m k v) k = some v := by
  unfold assocSet
  by_cases h : m.any (fun p => p.1 == k) = true
  · rw [if_pos h]
    unfold assocGet
    rw [find?_map_key_any m k v h]
    rfl
  · rw [if_neg h]
    unfold assocGet
    rw [find?_append, find?_none_of_any_false m k (bool_eq_false h)]
    simp [Option.orElse, find?_cons_true]

theorem assocGet_set_ne {α : Type} (m : List (String × α)) (k1 k2 : String) (v : α)
    (h : ¬(k1 = k2)) :
    assocGet (assocSet m k1 v) k2 = assocGet m k2 := by
  unfold assocSet
  by_cases ha : m.any (fun p => p.1 == k1) = true
  · rw [if_pos ha]
    unfold assocGet
    rw [find?_key2_map m k1 k2 v h]
  · rw [if_neg ha]
    unfold assocGet
    rw [find?_append]
    cases hm : m.find? (fun p => p.1 == k2) with
    | some a => simp [Option.orElse, hm]
    | none =>
      simp only [hm, Option.orElse]
      rw [find?_cons_false _ _ _ (by simp [h])]
      simp [List.find?]

theorem assocGet_delete_self {α : Type} (m : List (String × α)) (k : String) :
    assocGet (assocDelete m k) k = none := by
  unfold assocDelete assocGet
  induction m with
  | nil => rfl
  | cons q rest ih =>
    by_cases hq : q.1 = k
    · rw [List.filter_cons, if_neg (by simp [hq])]
      exact ih
    · rw [List.filter_cons, if_pos (by simp [hq])]
      rw [find?_cons_false _ _ _ (by simpa using hq)]
      exact ih

theorem assocGet_delete_ne {α : Type} (m : List (String × α)) (k1 k2 : String)
    (h : ¬(k1 = k2)) :
    assocGet (assocDelete m k1) k2 = assocGet m k2 := by
  unfold assocDelete assocGet
  congr 1
  induction m with
  | nil => rfl
  | cons q rest ih =>
    by_cases hq : q.1 = k1
    · rw [List.filter_cons, if_neg (by simp [hq])]
      rw [find?_cons_false _ _ _ (by simp [hq, h])]
      exact ih
    · rw [List.filter_cons, if_pos (by simp [hq])]
      by_cases hq2 : q.1 = k2
      · rw [find?_cons_true _ _ _ (by simpa using hq2),
          find?_cons_true _ _ _ (by simpa using hq2)]
      · rw [find?_cons_false _ _ _ (by simpa using hq2),
          find?_cons_false _ _ _ (by simpa using hq2)]
        exact ih

theorem any_key_map {α : Type} (m : List (String × α)) (k : String) (v : α) :
    (m.map (fun p => if p.1 == k then (k, v) else p)).any (fun p => p.1 == k) =
      m.any (fun p => p.1 == k) := by
  induction m with
  | nil => rfl
  | cons q rest ih =>
    rw [List.map_cons, List.any_cons, List.any_cons, ih]
    by_cases hq : q.1 = k
    · rw [if_pos (by simpa using hq)]
      simp [hq]
    · rw [if_neg (by simpa using hq)]

theorem assocSet_assocSet {α : Type} (m : List (String × α)) (k : String)
    (v w : α) : assocSet (assocSet m k v) k w = assocSet m k w := by
  by_cases h : m.any (fun p => p.1 == k) = true
  · have h1 : assocSet m k v = m.map (fun p => if p.1 == k then (k, v) else p) := by
      unfold assocSet; rw [if_pos h]
    rw [h1]
    unfold assocSet
    rw [if_pos ((any_key_map m k v).trans h), if_pos h, List.map_map]
    apply List.map_congr_left
    intro p hp
    by_cases hq : p.1 = k
    · simp [Function.comp, hq]
    · simp [Function.comp, hq]
  · have h1 : assocSet m k v = m ++ [(k, v)] := by
      unfold assocSet; rw [if_neg h]
    rw [h1]
    unfold assocSet
    have h2 : ((m ++ [(k, v)]).any (fun p => p.1 == k)) = true := by
      simp [List.any_append, List.any_cons]
    rw [if_pos h2, if_neg h, List.map_append]
    rw [map_key_id_of_any_false m k w (bool_eq_false h)]
    simp

/-! ### Configuration-level lemmas -/

theorem notifyGot_eq (cfg : Configuration) (key : String) (ws : List WaitEntry)
    (h : assocGet cfg.waits key = some ws) :
    Configuration.notifyGot cfg key =
      (ws.map (fun w => (w.id, cfg.get key JSValue.undef)),
       match ws.reverse.filter (fun w => !w.once) with
       | [] => { cfg with waits := assocDelete cfg.waits key }
       | rem => { cfg with waits := assocSet cfg.waits key rem }) := by
  have hiter : notifyIter (cfg.get key JSValue.undef) ws.reverse ws.length =
      (ws.map (fun w => (w.id, cfg.get key JSValue.undef)),
       ws.reverse.filter (fun w => !w.once)) := by
    have h2 := notifyIter_spec (cfg.get key JSValue.undef) ws.reverse
    rwa [List.length_reverse, List.reverse_reverse] at h2
  cases hrem : ws.reverse.filter (fun w => !w.once) with
  | nil => simp [Configuration.notifyGot, h, hiter, hrem]
  | cons a l => simp [Configuration.notifyGot, h, hiter, hrem]

theorem notifyGot_none (cfg : Configuration) (key : String)
    (h : assocGet cfg.waits key = none) :
    Configuration.notifyGot cfg key = ([], cfg) := by
  simp [Configuration.notifyGot, h]

theorem notifyGot_config (cfg : Configuration) (key : String) :
    (Configuration.notifyGot cfg key).2.config = cfg.config := by
  unfold Configuration.notifyGot
  cases h : assocGet cfg.waits key with
  | none => rfl
  | some ws =>
    simp only []
    split <;> rfl

theorem notifyGot_strict (cfg : Configuration) (key : String) :
    (Configuration.notifyGot cfg key).2.strictMode = cfg.strictMode := by
  unfold Configuration.notifyGot
  cases h : assocGet cfg.waits key with
  | none => rfl
  | some ws =>
    simp only []
    split <;> rfl

theorem notifyGot_validator (cfg : Configuration) (key : String) :
    (Configuration.notifyGot cfg key).2.setterValidator = cfg.setterValidator := by
  unfold Configuration.notifyGot
  cases h : assocGet cfg.waits key with
  | none => rfl
  | some ws =>
    simp only []
    split <;> rfl

theorem setWait_waits (cfg : Configuration) (key : String) (id : Nat) (once : Bool) :
    assocGet (Configuration.setWait cfg key id once).waits key =
      some ((assocGet cfg.waits key).getD [] ++ [{ once := once, id := id }]) := by
  unfold Configuration.setWait
  cases h : assocGet cfg.waits key with
  | some ws => simp [assocGet_set_self]
  | none => simp [assocGet_set_self]

theorem setWait_config (cfg : Configuration) (key : String) (id : Nat) (once : Bool) :
    (Configuration.setWait cfg key id once).config = cfg.config := by
  unfold Configuration.setWait
  cases assocGet cfg.waits key <;> rfl

theorem setWait_strict (cfg : Configuration) (key : String) (id : Nat) (once : Bool) :
    (Configuration.setWait cfg key id once).strictMode = cfg.strictMode := by
  unfold Configuration.setWait
  cases assocGet cfg.waits key <;> rfl

theorem setWait_validator (cfg : Configuration) (key : String) (id : Nat) (once : Bool) :
    (Configuration.setWait cfg key id once).setterValidator = cfg.setterValidator := by
  unfold Configuration.setWait
  cases assocGet cfg.waits key <;> rfl

theorem set_eq_of_ok (cfg : Configuration) (k : String) (v : JSValue)
    (h : SetOk cfg k v) :
    Configuration.set cfg k v =
      Configuration.notifyGot { cfg with config := assocSet cfg.config k v } k := by
  cases hs : cfg.strictMode with
  | false => simp [Configuration.set, hs]
  | true => simp [Configuration.set, hs, h hs]

theorem objGet_set_self (c : List (String × JSValue)) (k : String) (v : JSValue) :
    objGet (assocSet c k v) k = v := by
  unfold objGet
  rw [assocGet_set_self]
  rfl

theorem lodashGet_set_self (c : List (String × JSValue)) (k : String) (v : JSValue) :
    lodashGet (assocSet c k v) k JSValue.undef = v := by
  have hk : isKeyOf (assocSet c k v) k = true := by
    unfold isKeyOf objHasKey
    rw [assocGet_set_self]
    simp
  simp only [lodashGet, hk, if_true, objGet_set_self]
  cases v <;> simp [JSValue.isUndefined]

theorem filter_map_events_nil (ws : List WaitEntry) (id : Nat) (x : JSValue)
    (h : ∀ w ∈ ws, w.id ≠ id) :
    (ws.map (fun w => (w.id, x))).filter (fun e => e.1 == id) = [] := by
  induction ws with
  | nil => rfl
  | cons w rest ih =>
    rw [List.map_cons, List.filter_cons,
      if_neg (by simpa using h w (List.mem_cons_self w rest))]
    exact ih (fun w2 hw2 => h w2 (List.mem_cons_of_mem w hw2))

theorem idFresh_entries (cfg : Configuration) (id : Nat) (k : String)
    (ws : List WaitEntry) (hf : idFresh cfg id)
    (h : assocGet cfg.waits k = some ws) : ∀ w ∈ ws, w.id ≠ id := by
  intro w hw
  unfold assocGet at h
  cases hfind : cfg.waits.find? (fun p => p.1 == k) with
  | none => rw [hfind] at h; simp at h
  | some p =>
    rw [hfind] at h
    simp at h
    have hp : p ∈ cfg.waits := List.mem_of_find?_eq_some hfind
    have := hf p hp w
    apply this
    rw [h]
    exact hw

theorem notifyGot_events (cfg : Configuration) (k : String) (ws : List WaitEntry)
    (h : assocGet cfg.waits k = some ws) :
    (Configuration.notifyGot cfg k).1 =
      ws.map (fun w => (w.id, cfg.get k JSValue.undef)) := by
  rw [notifyGot_eq cfg k ws h]

theorem notifyGot_snd (cfg : Configuration) (k : String) (ws : List WaitEntry)
    (h : assocGet cfg.waits k = some ws) :
    (Configuration.notifyGot cfg k).2 =
      (match ws.reverse.filter (fun w => !w.once) with
       | [] => { cfg with waits := assocDelete cfg.waits k }
       | rem => { cfg with waits := assocSet cfg.waits k rem }) := by
  rw [notifyGot_eq cfg k ws h]

theorem notifyGot_waits_after (cfg : Configuration) (k : String)
    (ws : List WaitEntry) (h : assocGet cfg.waits k = some ws) :
    assocGet (Configuration.notifyGot cfg k).2.waits k =
      (match ws.reverse.filter (fun w => !w.once) with
       | [] => none
       | rem => some rem) := by
  rw [notifyGot_eq cfg k ws h]
  cases hrem : ws.reverse.filter (fun w => !w.once) with
  | nil => simp [hrem, assocGet_delete_self]
  | cons a l => simp [hrem, assocGet_set_self]

/-! ### Claim theorems -/

/-- C1: in strict mode, a validator result of false or a string makes
set(k, v) leave the entire config mapping unchanged (in particular has is
unchanged) and fire no waiter, with no exception (the model is total by
construction, mirroring that the source only logs a warning); a validator
result of true stores v under k (so has(k) becomes true exactly when v is
defined) and fires notifyGot(k). -/
theorem strict_set_validation (cfg : Configuration) (k : String) (v : JSValue)
    (hs : cfg.strictMode = true) :
    (validRejected (cfg.setterValidator k v) = true →
      Configuration.set cfg k v = ([], cfg)) ∧
    (cfg.setterValidator k v = ValidRes.b true →
      Configuration.set cfg k v =
        Configuration.notifyGot { cfg with config := assocSet cfg.config k v } k ∧
      (Configuration.set cfg k v).2.config = assocSet cfg.config k v ∧
      (Configuration.set cfg k v).2.has k = !v.isUndefined) := by
  constructor
  · intro hr
    simp [Configuration.set, hs, hr]
  · intro hv
    have hok : SetOk cfg k v := fun _ => by rw [hv]; rfl
    have he := set_eq_of_ok cfg k v hok
    refine ⟨he, ?_, ?_⟩
    · rw [he, notifyGot_config]
    · unfold Configuration.has
      rw [he, notifyGot_config]
      show (!(objGet (assocSet cfg.config k v) k).isUndefined) = !v.isUndefined
      rw [objGet_set_self]

/-- Witness for C1: the validator of vcfgC1 rejects the key x and approves
the key y, and the theorem applies at both. -/
theorem strict_set_validation_witness :
    (vcfgC1.strictMode = true ∧
     ((validRejected (vcfgC1.setterValidator "x" (JSValue.num 1)) = true →
        Configuration.set vcfgC1 "x" (JSValue.num 1) = ([], vcfgC1)) ∧
      (vcfgC1.setterValidator "x" (JSValue.num 1) = ValidRes.b true →
        Configuration.set vcfgC1 "x" (JSValue.num 1) =
          Configuration.notifyGot
            { vcfgC1 with config := assocSet vcfgC1.config "x" (JSValue.num 1) } "x" ∧
        (Configuration.set vcfgC1 "x" (JSValue.num 1)).2.config =
          assocSet vcfgC1.config "x" (JSValue.num 1) ∧
        (Configuration.set vcfgC1 "x" (JSValue.num 1)).2.has "x" =
          !(JSValue.num 1).isUndefined))) ∧
    (vcfgC1.strictMode = true ∧
     ((validRejected (vcfgC1.setterValidator "y" (JSValue.num 1)) = true →
        Configuration.set vcfgC1 "y" (JSValue.num 1) = ([], vcfgC1)) ∧
      (vcfgC1.setterValidator "y" (JSValue.num 1) = ValidRes.b true →
        Configuration.set vcfgC1 "y" (JSValue.num 1) =
          Configuration.notifyGot
            { vcfgC1 with config := assocSet vcfgC1.config "y" (JSValue.num 1) } "y" ∧
        (Configuration.set vcfgC1 "y" (JSValue.num 1)).2.config =
          assocSet vcfgC1.config "y" (JSValue.num 1) ∧
        (Configuration.set vcfgC1 "y" (JSValue.num 1)).2.has "y" =
          !(JSValue.num 1).isUndefined))) :=
  ⟨⟨rfl, strict_set_validation vcfgC1 "x" (JSValue.num 1) rfl⟩,
   ⟨rfl, strict_set_validation vcfgC1 "y" (JSValue.num 1) rfl⟩⟩

/-- C4 as stated is false at cfgC4: the waiter with id 1 was registered
before the waiter with id 2, and one notifyGot call invokes id 1 first —
registration order, not newest-subscriber-first. -/
theorem notify_not_newest_first :
    ((Configuration.notifyGot cfgC4 "k").1.map Prod.fst = [1, 2]) ∧
    ([1, 2] : List Nat) ≠ [2, 1] := by
  exact ⟨rfl, by decide⟩

/-- C4 amended: with at least two registered waiters (indeed with any
registered list), notifyGot invokes the waiters in order from least recently
registered to most recently registered — the reversal of the copy is undone
by the descending loop — and afterwards persists the remaining waiters for
the key (in reversed order relative to registration) or deletes the entry
when none remain. -/
theorem notify_registration_order (cfg : Configuration) (k : String)
    (ws : List WaitEntry) (h : assocGet cfg.waits k = some ws) :
    (Configuration.notifyGot cfg k).1 =
      ws.map (fun w => (w.id, Configuration.get cfg k JSValue.undef)) ∧
    assocGet (Configuration.notifyGot cfg k).2.waits k =
      (match ws.reverse.filter (fun w => !w.once) with
       | [] => none
       | rem => some rem) :=
  ⟨notifyGot_events cfg k ws h, notifyGot_waits_after cfg k ws h⟩

/-- Witness for the amended C4 at cfgC4: both waiters fire, id 1 first. -/
theorem notify_registration_order_witness :
    assocGet cfgC4.waits "k" =
      some [{ once := false, id := 1 }, { once := false, id := 2 }] ∧
    ((Configuration.notifyGot cfgC4 "k").1 =
      ([{ once := false, id := 1 }, { once := false, id := 2 }] :
          List WaitEntry).map
        (fun w => (w.id, Configuration.get cfgC4 "k" JSValue.undef)) ∧
     assocGet (Configuration.notifyGot cfgC4 "k").2.waits "k" =
      (match ([{ once := false, id := 1 }, { once := false, id := 2 }] :
          List WaitEntry).reverse.filter (fun w => !w.once) with
       | [] => none
       | rem => some rem)) :=
  ⟨rfl, notify_registration_order cfgC4 "k" _ rfl⟩

/-- C5: a single notifyGot call invokes each registered waiter exactly once
despite the in-loop splicing — for every callback identity, the number of
invocation events equals the number of entries carrying that identity, and
the total number of events equals the number of entries — and exactly the
once-marked waiters are removed by the call: the persisted list is the
filter of the persistent entries (the key is dropped when none remain). -/
theorem notify_each_waiter_once (cfg : Configuration) (k : String)
    (ws : List WaitEntry) (h : assocGet cfg.waits k = some ws) :
    (∀ i : Nat,
       (Configuration.notifyGot cfg k).1.countP (fun e => e.1 == i) =
         ws.countP (fun w => w.id == i)) ∧
    (Configuration.notifyGot cfg k).1.length = ws.length ∧
    assocGet (Configuration.notifyGot cfg k).2.waits k =
      (match ws.reverse.filter (fun w => !w.once) with
       | [] => none
       | rem => some rem) := by
  refine ⟨?_, ?_, notifyGot_waits_after cfg k ws h⟩
  · intro i
    rw [notifyGot_events cfg k ws h, List.countP_map]
    rfl
  · rw [notifyGot_events cfg k ws h, List.length_map]

/-- Witness for C5 at cfgC4. -/
theorem notify_each_waiter_once_witness :
    assocGet cfgC4.waits "k" =
      some [{ once := false, id := 1 }, { once := false, id := 2 }] ∧
    ((∀ i : Nat,
       (Configuration.notifyGot cfgC4 "k").1.countP (fun e => e.1 == i) =
         ([{ once := false, id := 1 }, { once := false, id := 2 }] :
           List WaitEntry).countP (fun w => w.id == i)) ∧
     (Configuration.notifyGot cfgC4 "k").1.length =
       ([{ once := false, id := 1 }, { once := false, id := 2 }] :
         List WaitEntry).length ∧
     assocGet (Configuration.notifyGot cfgC4 "k").2.waits "k" =
      (match ([{ once := false, id := 1 }, { once := false, id := 2 }] :
          List WaitEntry).reverse.filter (fun w => !w.once) with
       | [] => none
       | rem => some rem)) :=
  ⟨rfl, notify_each_waiter_once cfgC4 "k" _ rfl⟩

/-- C10: has and get disagree on dotted-path keys: on a store where the
literal key a.b is absent but a holds an object with field b mapped to v,
get resolves the dotted path and returns v while has, which only tests the
literal property, returns false (and has of the literal key a is true). -/
theorem has_get_dotted_path_disagree (v : JSValue) :
    Configuration.get (cfgC10 v) "a.b" JSValue.undef = v ∧
    Configuration.has (cfgC10 v) "a.b" = false ∧
    Configuration.has (cfgC10 v) "a" = true := by
  refine ⟨?_, rfl, rfl⟩
  cases v <;> rfl

/-! ### setConfig (C9) -/

theorem objGet_cons_self (q : String × JSValue) (rest : List (String × JSValue)) :
    objGet (q :: rest) q.1 = q.2 := by
  unfold objGet assocGet
  rw [find?_cons_true _ _ _ (by simp)]
  rfl

theorem objGet_cons_ne (q : String × JSValue) (rest : List (String × JSValue))
    (k : String) (h : ¬(q.1 = k)) : objGet (q :: rest) k = objGet rest k := by
  unfold objGet assocGet
  rw [find?_cons_false _ _ _ (by simp [h])]

theorem foldl_set_congr (keys : List String) (f g : String → JSValue)
    (h : ∀ k ∈ keys, f k = g k) :
    ∀ acc : List (Nat × JSValue) × Configuration,
      keys.foldl
        (fun a key => (a.1 ++ (Configuration.set a.2 key (f key)).1,
                       (Configuration.set a.2 key (f key)).2)) acc =
      keys.foldl
        (fun a key => (a.1 ++ (Configuration.set a.2 key (g key)).1,
                       (Configuration.set a.2 key (g key)).2)) acc := by
  induction keys with
  | nil => intro acc; rfl
  | cons k0 ks ih =>
    intro acc
    rw [List.foldl_cons, List.foldl_cons, h k0 (List.mem_cons_self k0 ks)]
    exact ih (fun k hk => h k (List.mem_cons_of_mem k0 hk)) _

theorem setConfig_fold_eq (fields : List (String × JSValue)) :
    ∀ acc : List (Nat × JSValue) × Configuration,
      (fields.map Prod.fst).Nodup →
      (fields.map Prod.fst).foldl
        (fun a key => (a.1 ++ (Configuration.set a.2 key (objGet fields key)).1,
                       (Configuration.set a.2 key (objGet fields key)).2)) acc =
      fields.foldl
        (fun a p => (a.1 ++ (Configuration.set a.2 p.1 p.2).1,
                     (Configuration.set a.2 p.1 p.2).2)) acc := by
  induction fields with
  | nil => intro acc h; rfl
  | cons q rest ih =>
    intro acc hnd
    rw [List.map_cons, List.foldl_cons, List.foldl_cons, objGet_cons_self]
    have hnd2 := hnd
    rw [List.map_cons] at hnd2
    have hpair := List.nodup_cons.mp hnd2
    have hcong : ∀ k ∈ rest.map Prod.fst, objGet (q :: rest) k = objGet rest k := by
      intro k hk
      exact objGet_cons_ne q rest k (fun he => hpair.1 (he ▸ hk))
    exact (foldl_set_congr (rest.map Prod.fst)
        (fun key => objGet (q :: rest) key) (fun key => objGet rest key) hcong _).trans
      (ih _ hpair.2)

/-- C9: setConfig of a non-plain-object argument leaves the store completely
unchanged, and setConfig of a plain object equals folding set over its own
key/value entries (each set independently validated, so some keys may be
rejected while others are stored). -/
theorem setConfig_per_key_sets (cfg : Configuration) (config : JSValue)
    (fields : List (String × JSValue))
    (hno : isPlainObject config = false)
    (hnd : (fields.map Prod.fst).Nodup) :
    Configuration.setConfig cfg config = ([], cfg) ∧
    Configuration.setConfig cfg (JSValue.obj fields) =
      fields.foldl
        (fun acc p =>
          let r := Configuration.set acc.2 p.1 p.2
          (acc.1 ++ r.1, r.2))
        ([], cfg) := by
  constructor
  · cases config with
    | obj f2 => simp [isPlainObject] at hno
    | undef => rfl
    | jnull => rfl
    | boolV b => rfl
    | num n => rfl
    | str s => rfl
    | ext t => rfl
  · show (fields.map Prod.fst).foldl
        (fun a key => (a.1 ++ (Configuration.set a.2 key (objGet fields key)).1,
                       (Configuration.set a.2 key (objGet fields key)).2)) ([], cfg) =
      fields.foldl
        (fun a p => (a.1 ++ (Configuration.set a.2 p.1 p.2).1,
                     (Configuration.set a.2 p.1 p.2).2)) ([], cfg)
    exact setConfig_fold_eq fields ([], cfg) hnd

/-- Witness for C9: a non-object argument and a two-key object on the
configuration whose validator rejects x and approves y (so the x entry is
dropped and the y entry stored — partial application). -/
theorem setConfig_per_key_sets_witness :
    isPlainObject (JSValue.num 3) = false ∧
    ([("x", JSValue.num 1), ("y", JSValue.num 2)].map Prod.fst).Nodup ∧
    (Configuration.setConfig vcfgC1 (JSValue.num 3) = ([], vcfgC1) ∧
     Configuration.setConfig vcfgC1
        (JSValue.obj [("x", JSValue.num 1), ("y", JSValue.num 2)]) =
      [("x", JSValue.num 1), ("y", JSValue.num 2)].foldl
        (fun acc p =>
          let r := Configuration.set acc.2 p.1 p.2
          (acc.1 ++ r.1, r.2))
        ([], vcfgC1)) :=
  ⟨rfl, by decide,
   setConfig_per_key_sets vcfgC1 (JSValue.num 3)
     [("x", JSValue.num 1), ("y", JSValue.num 2)] rfl (by decide)⟩

/-! ### Construction preconditions (C8) -/

/-- C8 as stated is false on the validator clause: a supplied setterValidator
that is a falsy non-function (here the number 0) does not make the
Configuration constructor throw — the truthiness guard `if (setterValidator)`
skips the typeof invariant and construction succeeds. -/
theorem falsy_validator_not_thrown :
    exceptOk (Configuration.make cfgObjC8 (some optsC8)) = true := rfl

/-- C8 amended: createRenderer with a non-function adapter fails with the
precondition error before the returned factory exists (hence before any
options are processed), and with a function adapter it succeeds; the
Configuration constructor fails with the config precondition error for every
falsy config, succeeds for a truthy config with no validator or a function
validator, and for a supplied non-function validator it throws exactly when
that validator value is truthy (a falsy one is ignored by the truthiness
guard). -/
theorem construction_preconditions (v w : JSValue) (rr : List (String × JSValue))
    (c : JSValue) (sm : Option Bool) (f : String → JSValue → ValidRes) :
    createRenderer (AdapterArg.other v) =
      Except.error "The first parameter must be a function." ∧
    exceptOk (createRenderer (AdapterArg.fn rr)) = true ∧
    Configuration.make c none =
      (if jsTruthy c then
        Except.ok { strictMode := strictOf none,
                    setterValidator := defaultSetterValidator,
                    config := objFields c, waits := [] }
       else Except.error "config must exist") ∧
    Configuration.make c
        (some { strictMode := sm, setterValidator := some (SetterArg.fn f) }) =
      (if jsTruthy c then
        Except.ok { strictMode := strictOf sm, setterValidator := f,
                    config := objFields c, waits := [] }
       else Except.error "config must exist") ∧
    Configuration.make c
        (some { strictMode := sm, setterValidator := some (SetterArg.other w) }) =
      (if jsTruthy c then
        (if jsTruthy w then Except.error "setterValidator must be a function"
         else Except.ok { strictMode := strictOf sm,
                          setterValidator := defaultSetterValidator,
                          config := objFields c, waits := [] })
       else Except.error "config must exist") := by
  refine ⟨rfl, rfl, ?_, ?_, ?_⟩
  · cases hc : jsTruthy c <;> simp [Configuration.make, invariant, hc]
  · cases hc : jsTruthy c <;> simp [Configuration.make, invariant, hc, SetterArg.truthy]
  · cases hc : jsTruthy c
    · simp [Configuration.make, invariant, hc]
    · cases hw : jsTruthy w <;>
        simp [Configuration.make, invariant, hc, SetterArg.truthy, hw]

/-! ### Waiter registration followed by set (C2, C3) -/

theorem set_strict_preserved (cfg : Configuration) (k : String) (v : JSValue) :
    (Configuration.set cfg k v).2.strictMode = cfg.strictMode := by
  unfold Configuration.set
  split
  · rfl
  · rw [notifyGot_strict]

theorem set_validator_preserved (cfg : Configuration) (k : String) (v : JSValue) :
    (Configuration.set cfg k v).2.setterValidator = cfg.setterValidator := by
  unfold Configuration.set
  split
  · rfl
  · rw [notifyGot_validator]

theorem setOk_preserved_by_set (cfg : Configuration) (k k2 : String)
    (v w : JSValue) (hw : SetOk cfg k2 w) :
    SetOk (Configuration.set cfg k v).2 k2 w := by
  intro hs
  rw [set_validator_preserved]
  exact hw (by rwa [set_strict_preserved] at hs)

theorem setOk_preserved_by_setWait (cfg : Configuration) (k k2 : String)
    (id : Nat) (b : Bool) (w : JSValue) (hw : SetOk cfg k2 w) :
    SetOk (cfg.setWait k id b) k2 w := by
  intro hs
  rw [setWait_validator]
  exact hw (by rwa [setWait_strict] at hs)

theorem old_entries_fresh (cfg : Configuration) (k : String) (id : Nat)
    (hf : idFresh cfg id) :
    ∀ w2 ∈ (assocGet cfg.waits k).getD [], w2.id ≠ id := by
  cases hh : assocGet cfg.waits k with
  | none => intro w2 hw2; simp at hw2
  | some ws0 =>
    intro w2 hw2
    exact idFresh_entries cfg id k ws0 hf hh w2 (by simpa using hw2)

/-- After registering a fresh waiter (any once flag) for key k, a successful
set(k, v) produces exactly one invocation event for that waiter, with the
value v. -/
theorem registered_set_fires_once (cfg : Configuration) (k : String) (id : Nat)
    (b : Bool) (v : JSValue) (hf : idFresh cfg id) (hv : SetOk cfg k v) :
    (Configuration.set (cfg.setWait k id b) k v).1.filter
      (fun e => e.1 == id) = [(id, v)] := by
  have hv1 : SetOk (cfg.setWait k id b) k v :=
    setOk_preserved_by_setWait cfg k k id b v hv
  have hset1 := set_eq_of_ok (cfg.setWait k id b) k v hv1
  have hws1 : assocGet
      ({ cfg.setWait k id b with
         config := assocSet (cfg.setWait k id b).config k v } : Configuration).waits k =
      some ((assocGet cfg.waits k).getD [] ++ [{ once := b, id := id }]) :=
    setWait_waits cfg k id b
  have hget : Configuration.get
      ({ cfg.setWait k id b with
         config := assocSet (cfg.setWait k id b).config k v } : Configuration)
      k JSValue.undef = v := by
    show lodashGet (assocSet (cfg.setWait k id b).config k v) k JSValue.undef = v
    exact lodashGet_set_self (cfg.setWait k id b).config k v
  rw [hset1, notifyGot_events _ k _ hws1, hget]
  rw [List.map_append, List.filter_append]
  rw [filter_map_events_nil ((assocGet cfg.waits k).getD []) id v
    (old_entries_fresh cfg k id hf)]
  simp

/-- The waiter list for k after registering a fresh waiter and performing a
successful set: the reversed old persistent entries, preceded by the new
entry when it was persistent. -/
theorem registered_set_waits_after (cfg : Configuration) (k : String) (id : Nat)
    (b : Bool) (v : JSValue) (hf : idFresh cfg id) (hv : SetOk cfg k v) :
    assocGet (Configuration.set (cfg.setWait k id b) k v).2.waits k =
      (match (if b then [] else [({ once := b, id := id } : WaitEntry)]) ++
          ((assocGet cfg.waits k).getD []).reverse.filter (fun w2 => !w2.once) with
       | [] => none
       | rem => some rem) := by
  have hv1 : SetOk (cfg.setWait k id b) k v :=
    setOk_preserved_by_setWait cfg k k id b v hv
  have hset1 := set_eq_of_ok (cfg.setWait k id b) k v hv1
  have hws1 : assocGet
      ({ cfg.setWait k id b with
         config := assocSet (cfg.setWait k id b).config k v } : Configuration).waits k =
      some ((assocGet cfg.waits k).getD [] ++ [{ once := b, id := id }]) :=
    setWait_waits cfg k id b
  rw [hset1, notifyGot_waits_after _ k _ hws1]
  have hrev : ((assocGet cfg.waits k).getD [] ++
      [({ once := b, id := id } : WaitEntry)]).reverse.filter (fun w2 => !w2.once) =
      (if b then [] else [({ once := b, id := id } : WaitEntry)]) ++
        ((assocGet cfg.waits k).getD []).reverse.filter (fun w2 => !w2.once) := by
    rw [List.reverse_append]
    cases b <;> simp [List.filter_cons]
  rw [hrev]

/-- A once waiter does not fire again: after the registration and a first
successful set consumed it, a second successful set produces no event for
that identity. -/
theorem registered_once_no_refire (cfg : Configuration) (k : String) (id : Nat)
    (v w : JSValue) (hf : idFresh cfg id) (hv : SetOk cfg k v) (hw : SetOk cfg k w) :
    (Configuration.set (Configuration.set (cfg.setWait k id true) k v).2 k w).1.filter
      (fun e => e.1 == id) = [] := by
  have hwaits := registered_set_waits_after cfg k id true v hf hv
  have hv2 : SetOk (Configuration.set (cfg.setWait k id true) k v).2 k w :=
    setOk_preserved_by_set _ k k v w (setOk_preserved_by_setWait cfg k k id true w hw)
  have hset2 := set_eq_of_ok _ k w hv2
  rw [hset2]
  cases hrem0 : ((assocGet cfg.waits k).getD []).reverse.filter
      (fun w2 => !w2.once) with
  | nil =>
    rw [hrem0] at hwaits
    have hnone : assocGet
        ({ (Configuration.set (cfg.setWait k id true) k v).2 with
           config := assocSet (Configuration.set (cfg.setWait k id true) k v).2.config
             k w } : Configuration).waits k = none := hwaits
    rw [notifyGot_none _ k hnone]
    rfl
  | cons a l =>
    rw [hrem0] at hwaits
    have hsome : assocGet
        ({ (Configuration.set (cfg.setWait k id true) k v).2 with
           config := assocSet (Configuration.set (cfg.setWait k id true) k v).2.config
             k w } : Configuration).waits k = some (a :: l) := hwaits
    rw [notifyGot_events _ k (a :: l) hsome]
    have hfr : ∀ w2 ∈ (a :: l), w2.id ≠ id := by
      intro w2 hw2
      have h3 : w2 ∈ ((assocGet cfg.waits k).getD []).reverse.filter
          (fun w3 => !w3.once) := by
        rw [hrem0]; exact hw2
      exact old_entries_fresh cfg k id hf w2
        (List.mem_reverse.mp (List.mem_of_mem_filter h3))
    exact filter_map_events_nil (a :: l) id _ hfr

/-- A persistent waiter fires again: after the registration and a first
successful set, a second successful set(k, w) produces exactly one event for
that identity, with the value w. -/
theorem registered_persistent_refires (cfg : Configuration) (k : String) (id : Nat)
    (v w : JSValue) (hf : idFresh cfg id) (hv : SetOk cfg k v) (hw : SetOk cfg k w) :
    (Configuration.set (Configuration.set (cfg.setWait k id false) k v).2 k w).1.filter
      (fun e => e.1 == id) = [(id, w)] := by
  have hwaits := registered_set_waits_after cfg k id false v hf hv
  have hv2 : SetOk (Configuration.set (cfg.setWait k id false) k v).2 k w :=
    setOk_preserved_by_set _ k k v w (setOk_preserved_by_setWait cfg k k id false w hw)
  have hset2 := set_eq_of_ok _ k w hv2
  rw [hset2]
  have hsome : assocGet
      ({ (Configuration.set (cfg.setWait k id false) k v).2 with
         config := assocSet (Configuration.set (cfg.setWait k id false) k v).2.config
           k w } : Configuration).waits k =
      some (({ once := false, id := id } : WaitEntry) ::
        ((assocGet cfg.waits k).getD []).reverse.filter (fun w2 => !w2.once)) := hwaits
  rw [notifyGot_events _ k _ hsome]
  have hget2 : Configuration.get
      ({ (Configuration.set (cfg.setWait k id false) k v).2 with
         config := assocSet (Configuration.set (cfg.setWait k id false) k v).2.config
           k w } : Configuration) k JSValue.undef = w := by
    show lodashGet
      (assocSet (Configuration.set (cfg.setWait k id false) k v).2.config k w)
      k JSValue.undef = w
    exact lodashGet_set_self _ k w
  rw [hget2]
  rw [List.map_cons, List.filter_cons, if_pos (by simp)]
  have hfr : ∀ w2 ∈ ((assocGet cfg.waits k).getD []).reverse.filter
      (fun w3 => !w3.once), w2.id ≠ id := by
    intro w2 hw2
    exact old_entries_fresh cfg k id hf w2
      (List.mem_reverse.mp (List.mem_of_mem_filter hw2))
  rw [filter_map_events_nil _ id _ hfr]

/-- C2: when the stored value for k is defined, onceGot returns an
immediately resolved promise with that value and changes nothing; otherwise
it returns a pending promise whose resolve callback is registered as a once
waiter, the first subsequent successful set(k, v) resolves it with v exactly
once, and a further successful set does not invoke it again (the once waiter
was removed when it fired). -/
theorem onceGot_resolves_exactly_once
    (cfg cfgd : Configuration) (k : String) (id : Nat) (v w : JSValue)
    (hd : (objGet cfgd.config k).isUndefined = false)
    (hu : (objGet cfg.config k).isUndefined = true)
    (hf : idFresh cfg id)
    (hv : SetOk cfg k v)
    (hw : SetOk cfg k w) :
    Configuration.onceGot cfgd k id =
      (OncePromise.resolved (objGet cfgd.config k), cfgd) ∧
    (Configuration.onceGot cfg k id).1 = OncePromise.pending id ∧
    (Configuration.set (Configuration.onceGot cfg k id).2 k v).1.filter
        (fun e => e.1 == id) = [(id, v)] ∧
    (Configuration.set
        (Configuration.set (Configuration.onceGot cfg k id).2 k v).2 k w).1.filter
        (fun e => e.1 == id) = [] := by
  have h1 : Configuration.onceGot cfg k id =
      (OncePromise.pending id, cfg.setWait k id true) := by
    simp [Configuration.onceGot, hu]
  refine ⟨?_, ?_, ?_, ?_⟩
  · simp [Configuration.onceGot, hd]
  · rw [h1]
  · rw [h1]
    exact registered_set_fires_once cfg k id true v hf hv
  · rw [h1]
    exact registered_once_no_refire cfg k id v w hf hv hw

/-- Witness for C2 with an empty store (key k unset) and a store where k is
already set to 5. -/
theorem onceGot_resolves_exactly_once_witness :
    ((objGet cfgDefined.config "k").isUndefined = false ∧
     (objGet cfgEmpty.config "k").isUndefined = true ∧
     idFresh cfgEmpty 1 ∧
     SetOk cfgEmpty "k" (JSValue.num 1) ∧
     SetOk cfgEmpty "k" (JSValue.num 2)) ∧
    (Configuration.onceGot cfgDefined "k" 1 =
      (OncePromise.resolved (objGet cfgDefined.config "k"), cfgDefined) ∧
     (Configuration.onceGot cfgEmpty "k" 1).1 = OncePromise.pending 1 ∧
     (Configuration.set (Configuration.onceGot cfgEmpty "k" 1).2 "k"
        (JSValue.num 1)).1.filter (fun e => e.1 == 1) = [(1, JSValue.num 1)] ∧
     (Configuration.set
        (Configuration.set (Configuration.onceGot cfgEmpty "k" 1).2 "k"
          (JSValue.num 1)).2 "k" (JSValue.num 2)).1.filter
        (fun e => e.1 == 1) = []) :=
  ⟨⟨rfl, rfl, by simp [idFresh, cfgEmpty], fun _ => rfl, fun _ => rfl⟩,
   onceGot_resolves_exactly_once cfgEmpty cfgDefined "k" 1 (JSValue.num 1)
     (JSValue.num 2) rfl rfl (by simp [idFresh, cfgEmpty])
     (fun _ => rfl) (fun _ => rfl)⟩

/-! ### delWait (unsubscribe) lemmas -/

theorem delWait_waits_after (c : Configuration) (k : String) (id : Nat) :
    assocGet (Configuration.delWait c k id).waits k =
      (match assocGet c.waits k with
       | none => none
       | some ws =>
         match ws.filter (fun w2 => !(w2.id == id)) with
         | [] => none
         | rem => some rem) := by
  cases hh : assocGet c.waits k with
  | none => simp [Configuration.delWait, hh]
  | some ws =>
    cases hrem : ws.filter (fun w2 => !(w2.id == id)) with
    | nil =>
      simp [Configuration.delWait, hh, delWaitIter_spec, hrem, assocGet_delete_self]
    | cons a l =>
      simp [Configuration.delWait, hh, delWaitIter_spec, hrem, assocGet_set_self]

theorem delWait_idem (c : Configuration) (k : String) (id : Nat) :
    Configuration.delWait (Configuration.delWait c k id) k id =
      Configuration.delWait c k id := by
  cases hh : assocGet c.waits k with
  | none =>
    have h1 : Configuration.delWait c k id = c := by
      simp [Configuration.delWait, hh]
    rw [h1]
    exact h1
  | some ws =>
    cases hrem : ws.filter (fun w2 => !(w2.id == id)) with
    | nil =>
      have h1 : Configuration.delWait c k id =
          { c with waits := assocDelete c.waits k } := by
        simp [Configuration.delWait, hh, delWaitIter_spec, hrem]
      rw [h1]
      have h2 : assocGet ({ c with waits := assocDelete c.waits k } :
          Configuration).waits k = none := assocGet_delete_self _ _
      simp [Configuration.delWait, h2]
    | cons a l =>
      have h1 : Configuration.delWait c k id =
          { c with waits := assocSet c.waits k (a :: l) } := by
        simp [Configuration.delWait, hh, delWaitIter_spec, hrem]
      rw [h1]
      have h2 : assocGet ({ c with waits := assocSet c.waits k (a :: l) } :
          Configuration).waits k = some (a :: l) := assocGet_set_self _ _ _
      have h3 : (a :: l).filter (fun w2 => !(w2.id == id)) = a :: l := by
        apply List.filter_eq_self.mpr
        intro x hx
        rw [← hrem] at hx
        exact (List.mem_filter.mp hx).2
      have h4 := delWaitIter_spec id (a :: l)
      rw [h3] at h4
      simp only [List.length_cons] at h4
      simp [Configuration.delWait, h2, h4, assocSet_assocSet]

/-- C3: onGot invokes the callback synchronously exactly once with the
current value when it is defined (and not at all when it is undefined),
registers it as a persistent waiter (appended to the existing entries for
the key), so that a first successful set(k, v) then a second successful
set(k, w) on a previously unset key invoke it exactly once each, with v then
w, in that order; and the returned unsubscribe (delWait) removes every
registration of that callback for the key and is idempotent. -/
theorem onGot_persistent_callback
    (cfg cfgd : Configuration) (k : String) (id : Nat) (v w : JSValue)
    (hd : (objGet cfgd.config k).isUndefined = false)
    (hu : (objGet cfg.config k).isUndefined = true)
    (hf : idFresh cfg id)
    (hv : SetOk cfg k v)
    (hw : SetOk cfg k w) :
    (Configuration.onGot cfgd k id).1 = [(id, objGet cfgd.config k)] ∧
    (Configuration.onGot cfg k id).1 = [] ∧
    assocGet (Configuration.onGot cfg k id).2.waits k =
      some ((assocGet cfg.waits k).getD [] ++ [{ once := false, id := id }]) ∧
    (Configuration.set (Configuration.onGot cfg k id).2 k v).1.filter
        (fun e => e.1 == id) = [(id, v)] ∧
    (Configuration.set
        (Configuration.set (Configuration.onGot cfg k id).2 k v).2 k w).1.filter
        (fun e => e.1 == id) = [(id, w)] ∧
    (∀ c : Configuration,
      assocGet (Configuration.delWait c k id).waits k =
        (match assocGet c.waits k with
         | none => none
         | some ws =>
           match ws.filter (fun w2 => !(w2.id == id)) with
           | [] => none
           | rem => some rem)) ∧
    (∀ c : Configuration,
      Configuration.delWait (Configuration.delWait c k id) k id =
        Configuration.delWait c k id) := by
  refine ⟨?_, ?_, ?_, ?_, ?_, ?_, ?_⟩
  · simp [Configuration.onGot, hd]
  · simp [Configuration.onGot, hu]
  · exact setWait_waits cfg k id false
  · exact registered_set_fires_once cfg k id false v hf hv
  · exact registered_persistent_refires cfg k id v w hf hv hw
  · exact fun c => delWait_waits_after c k id
  · exact fun c => delWait_idem c k id

/-- Witness for C3 with an empty store (key k unset) and a store where k is
already set. -/
theorem onGot_persistent_callback_witness :
    ((objGet cfgDefined.config "k").isUndefined = false ∧
     (objGet cfgEmpty.config "k").isUndefined = true ∧
     idFresh cfgEmpty 1 ∧
     SetOk cfgEmpty "k" (JSValue.num 1) ∧
     SetOk cfgEmpty "k" (JSValue.num 2)) ∧
    ((Configuration.onGot cfgDefined "k" 1).1 =
      [(1, objGet cfgDefined.config "k")] ∧
     (Configuration.onGot cfgEmpty "k" 1).1 = [] ∧
     assocGet (Configuration.onGot cfgEmpty "k" 1).2.waits "k" =
      some ((assocGet cfgEmpty.waits "k").getD [] ++ [{ once := false, id := 1 }]) ∧
     (Configuration.set (Configuration.onGot cfgEmpty "k" 1).2 "k"
        (JSValue.num 1)).1.filter (fun e => e.1 == 1) = [(1, JSValue.num 1)] ∧
     (Configuration.set
        (Configuration.set (Configuration.onGot cfgEmpty "k" 1).2 "k"
          (JSValue.num 1)).2 "k" (JSValue.num 2)).1.filter
        (fun e => e.1 == 1) = [(1, JSValue.num 2)] ∧
     (∀ c : Configuration,
       assocGet (Configuration.delWait c "k" 1).waits "k" =
        (match assocGet c.waits "k" with
         | none => none
         | some ws =>
           match ws.filter (fun w2 => !(w2.id == 1)) with
           | [] => none
           | rem => some rem)) ∧
     (∀ c : Configuration,
       Configuration.delWait (Configuration.delWait c "k" 1) "k" 1 =
         Configuration.delWait c "k" 1)) :=
  ⟨⟨rfl, rfl, by simp [idFresh, cfgEmpty], fun _ => rfl, fun _ => rfl⟩,
   onGot_persistent_callback cfgEmpty cfgDefined "k" 1 (JSValue.num 1)
     (JSValue.num 2) rfl rfl (by simp [idFresh, cfgEmpty])
     (fun _ => rfl) (fun _ => rfl)⟩

/-! ### Bootstrap ordering (C6) -/

/-- C6: the bootstrap sequence is strictly ordered: main advances to
OptionsResolved and suspends; the constructor continuation then invokes the
adapter, awaits it, stores the render object and only then sets Ready; main
resumes and registers the initial plugins after the adapter completed and
before loadPackages begins, and AfterInitPackageLoad is set only after the
packages finished loading. -/
theorem bootstrap_sequence_ordered (opts : AppOptions)
    (ar : List (String × JSValue)) :
    beforeIn (bootstrapRun opts ar).trace
      (BootEvent.phaseSet LifecyclePhase.OptionsResolved) BootEvent.adapterInvoked ∧
    beforeIn (bootstrapRun opts ar).trace
      BootEvent.adapterInvoked BootEvent.adapterResolved ∧
    beforeIn (bootstrapRun opts ar).trace
      BootEvent.adapterResolved BootEvent.renderObjectStored ∧
    beforeIn (bootstrapRun opts ar).trace
      BootEvent.renderObjectStored (BootEvent.phaseSet LifecyclePhase.Ready) ∧
    beforeIn (bootstrapRun opts ar).trace
      (BootEvent.phaseSet LifecyclePhase.Ready) BootEvent.registerPluginCalled ∧
    beforeIn (bootstrapRun opts ar).trace
      BootEvent.registerPluginCalled BootEvent.registerPluginResolved ∧
    beforeIn (bootstrapRun opts ar).trace
      BootEvent.registerPluginResolved BootEvent.loadPackagesCalled ∧
    beforeIn (bootstrapRun opts ar).trace
      BootEvent.loadPackagesCalled BootEvent.loadPackagesResolved ∧
    beforeIn (bootstrapRun opts ar).trace
      BootEvent.loadPackagesResolved
      (BootEvent.phaseSet LifecyclePhase.AfterInitPackageLoad) := by
  rw [bootstrapRun_trace]
  unfold beforeIn
  decide

/-! ### The application object (C7) -/

theorem find?_not_mem_key (l : List (String × JSValue)) (k : String)
    (h : k ∉ l.map Prod.fst) : l.find? (fun p => p.1 == k) = none := by
  induction l with
  | nil => rfl
  | cons q rest ih =>
    have h2 : ¬(k = q.1 ∨ k ∈ rest.map Prod.fst) := by simpa using h
    rw [find?_cons_false _ _ _ (by simp; exact fun he => h2 (Or.inl he.symm))]
    exact ih (fun hk => h2 (Or.inr hk))

theorem mkObj_get_aux : ∀ (entries acc : List (String × JSValue)) (k : String),
    assocGet (entries.foldl (fun a p => assocSet a p.1 p.2) acc) k =
      (match entries.reverse.find? (fun p => p.1 == k) with
       | some p => some p.2
       | none => assocGet acc k) := by
  intro entries
  induction entries with
  | nil => intro acc k; rfl
  | cons q rest ih =>
    intro acc k
    rw [List.foldl_cons, ih (assocSet acc q.1 q.2) k]
    rw [show ((q :: rest).reverse) = rest.reverse ++ [q] from by simp]
    rw [find?_append]
    cases hr : rest.reverse.find? (fun p => p.1 == k) with
    | some p => simp [Option.orElse, hr]
    | none =>
      simp only [hr, Option.orElse]
      by_cases hq : q.1 = k
      · rw [find?_cons_true _ _ _ (by simp [hq])]
        rw [hq] at *
        simp [assocGet_set_self]
      · rw [find?_cons_false _ _ _ (by simp [hq])]
        simp [assocGet_set_ne acc q.1 k q.2 hq, List.find?]

theorem mkObj_get (entries : List (String × JSValue)) (k : String) :
    assocGet (mkObj entries) k =
      (match entries.reverse.find? (fun p => p.1 == k) with
       | some p => some p.2
       | none => none) := by
  cases hr : entries.reverse.find? (fun p => p.1 == k) with
  | some p =>
    have h2 := mkObj_get_aux entries [] k
    rw [hr] at h2
    simpa [mkObj] using h2
  | none =>
    have h2 := mkObj_get_aux entries [] k
    rw [hr] at h2
    simpa [mkObj, assocGet] using h2

theorem find?_nodup_mem : ∀ (l : List (String × JSValue)),
    (l.map Prod.fst).Nodup → ∀ (k : String) (v : JSValue), (k, v) ∈ l →
      l.find? (fun p => p.1 == k) = some (k, v) := by
  intro l
  induction l with
  | nil => intro _ k v hm; simp at hm
  | cons q rest ih =>
    intro hnd k v hm
    have hnd2 := hnd
    rw [List.map_cons] at hnd2
    have hpair := List.nodup_cons.mp hnd2
    by_cases hq : q.1 = k
    · rw [find?_cons_true _ _ _ (by simp [hq])]
      cases List.mem_cons.mp hm with
      | inl he => rw [← he]
      | inr hr =>
        have hk : k ∈ rest.map Prod.fst := List.mem_map_of_mem Prod.fst hr
        exact absurd hk (hq ▸ hpair.1)
    · rw [find?_cons_false _ _ _ (by simp [hq])]
      cases List.mem_cons.mp hm with
      | inl he => exact absurd (congrArg Prod.fst he.symm) hq
      | inr hr => exact ih hpair.2 k v hr

theorem app_rev (M : String) (ar : List (String × JSValue)) :
    (([("__options", JSValue.ext "initOptions"),
       ("mode", JSValue.str M),
       ("schema", JSValue.ext "schemaService"),
       ("packageManager", JSValue.ext "packageManagementService")] ++
      ar ++ [("use", JSValue.ext "useClosure")]) :
        List (String × JSValue)).reverse =
      ("use", JSValue.ext "useClosure") :: (ar.reverse ++
        [("packageManager", JSValue.ext "packageManagementService"),
         ("schema", JSValue.ext "schemaService"),
         ("mode", JSValue.str M),
         ("__options", JSValue.ext "initOptions")]) := by
  simp

theorem frozenAssign_id (o : List (String × JSValue)) (k : String) (v : JSValue) :
    frozenAssign o k v = o := rfl

/-- C7 as stated is false: with options supplying no mode and an adapter
whose render object has a mode field (here 42), the spread in getApp lets
the render object override the mode field, so the frozen application does
not contain the default mode production. -/
theorem getApp_mode_not_default :
    optsNoMode.mode = none ∧
    objGet (appOf (bootstrapRun optsNoMode [("mode", JSValue.num 42)])) "mode" =
      JSValue.num 42 ∧
    JSValue.num 42 ≠ JSValue.str "production" := by
  refine ⟨rfl, ?_, fun h => JSValue.noConfusion h⟩
  rw [bootstrapRun_eq]
  rfl

/-- C7 amended: getApp resolves only after the phase reaches
AfterInitPackageLoad (the appBuilt event follows that phase transition) and
yields the frozen merged object; the mode field (defaulting to production
when options supplied none), the schema and packageManager service handles
are present whenever the render object does not itself define fields of
those names; every field of the render object except a use field is present
with its value; use is always the delegating closure (overriding any use
field of the render object); and assigning to any field of the frozen
object has no effect. -/
theorem getApp_merged_frozen (opts : AppOptions) (ar : List (String × JSValue))
    (hnd : (ar.map Prod.fst).Nodup)
    (hm : "mode" ∉ ar.map Prod.fst)
    (hs : "schema" ∉ ar.map Prod.fst)
    (hp : "packageManager" ∉ ar.map Prod.fst) :
    (bootstrapRun opts ar).app =
      some (buildApp (resolveModeField opts.mode "production") (some ar)) ∧
    objGet (appOf (bootstrapRun opts ar)) "mode" =
      JSValue.str (resolveModeField opts.mode "production") ∧
    objGet (appOf (bootstrapRun opts ar)) "schema" = JSValue.ext "schemaService" ∧
    objGet (appOf (bootstrapRun opts ar)) "packageManager" =
      JSValue.ext "packageManagementService" ∧
    (∀ k v, (k, v) ∈ ar → ¬(k = "use") →
      objGet (appOf (bootstrapRun opts ar)) k = v) ∧
    objGet (appOf (bootstrapRun opts ar)) "use" = JSValue.ext "useClosure" ∧
    (∀ k v, frozenAssign (appOf (bootstrapRun opts ar)) k v =
      appOf (bootstrapRun opts ar)) ∧
    beforeIn (bootstrapRun opts ar).trace
      (BootEvent.phaseSet LifecyclePhase.AfterInitPackageLoad)
      BootEvent.appBuilt := by
  have happ : appOf (bootstrapRun opts ar) =
      buildApp (resolveModeField opts.mode "production") (some ar) := by
    rw [bootstrapRun_eq]
    rfl
  refine ⟨bootstrapRun_app opts ar, ?_, ?_, ?_, ?_, ?_,
    fun k v => frozenAssign_id _ k v, ?_⟩
  · rw [happ]
    unfold objGet buildApp
    simp only [Option.getD_some]
    rw [mkObj_get, app_rev]
    rw [find?_cons_false _ _ _ rfl]
    rw [find?_append, find?_not_mem_key ar.reverse "mode" (by simpa using hm)]
    rfl
  · rw [happ]
    unfold objGet buildApp
    simp only [Option.getD_some]
    rw [mkObj_get, app_rev]
    rw [find?_cons_false _ _ _ rfl]
    rw [find?_append, find?_not_mem_key ar.reverse "schema" (by simpa using hs)]
    rfl
  · rw [happ]
    unfold objGet buildApp
    simp only [Option.getD_some]
    rw [mkObj_get, app_rev]
    rw [find?_cons_false _ _ _ rfl]
    rw [find?_append,
      find?_not_mem_key ar.reverse "packageManager" (by simpa using hp)]
    rfl
  · intro k v hkm hkuse
    rw [happ]
    unfold objGet buildApp
    simp only [Option.getD_some]
    rw [mkObj_get, app_rev]
    rw [find?_cons_false _ _ _ (by simp; exact fun he => hkuse he.symm)]
    rw [find?_append,
      find?_nodup_mem ar.reverse (by simpa using hnd) k v (List.mem_reverse.mpr hkm)]
    simp [Option.orElse]
  · rw [happ]
    unfold objGet buildApp
    simp only [Option.getD_some]
    rw [mkObj_get, app_rev]
    rw [find?_cons_true _ _ _ rfl]
    rfl
  · rw [bootstrapRun_trace]
    unfold beforeIn
    decide

/-- Witness for the amended C7 at concrete options (no mode) and the render
object with a single foo field. -/
theorem getApp_merged_frozen_witness :
    ((([("foo", JSValue.num 1)] : List (String × JSValue)).map Prod.fst).Nodup ∧
     "mode" ∉ ([("foo", JSValue.num 1)] : List (String × JSValue)).map Prod.fst ∧
     "schema" ∉ ([("foo", JSValue.num 1)] : List (String × JSValue)).map Prod.fst ∧
     "packageManager" ∉
       ([("foo", JSValue.num 1)] : List (String × JSValue)).map Prod.fst) ∧
    ((bootstrapRun optsNoMode [("foo", JSValue.num 1)]).app =
      some (buildApp (resolveModeField optsNoMode.mode "production")
        (some [("foo", JSValue.num 1)])) ∧
     objGet (appOf (bootstrapRun optsNoMode [("foo", JSValue.num 1)])) "mode" =
      JSValue.str (resolveModeField optsNoMode.mode "production") ∧
     objGet (appOf (bootstrapRun optsNoMode [("foo", JSValue.num 1)])) "schema" =
      JSValue.ext "schemaService" ∧
     objGet (appOf (bootstrapRun optsNoMode [("foo", JSValue.num 1)]))
        "packageManager" = JSValue.ext "packageManagementService" ∧
     (∀ k v, (k, v) ∈ ([("foo", JSValue.num 1)] : List (String × JSValue)) →
        ¬(k = "use") →
        objGet (appOf (bootstrapRun optsNoMode [("foo", JSValue.num 1)])) k = v) ∧
     objGet (appOf (bootstrapRun optsNoMode [("foo", JSValue.num 1)])) "use" =
      JSValue.ext "useClosure" ∧
     (∀ k v, frozenAssign
        (appOf (bootstrapRun optsNoMode [("foo", JSValue.num 1)])) k v =
        appOf (bootstrapRun optsNoMode [("foo", JSValue.num 1)])) ∧
     beforeIn (bootstrapRun optsNoMode [("foo", JSValue.num 1)]).trace
      (BootEvent.phaseSet LifecyclePhase.AfterInitPackageLoad)
      BootEvent.appBuilt) :=
  ⟨⟨by decide, by decide, by decide, by decide⟩,
   getApp_merged_frozen optsNoMode [("foo", JSValue.num 1)]
     (by decide) (by decide) (by decide) (by decide)⟩
